import Mathlib

/-
  Verification of the remote-ssh.nvim LSP proxy scripts.

  This file gives a shallow embedding of the two Python proxy scripts of the
  repository:
    * src/lua/proxy.py             (names carrying the suffix A below)
    * src/lua/remote-lsp/proxy.py  (names carrying the suffix B below)
  Python byte/str values are modelled as `List Char` (Python `len`, slicing,
  `startswith` and `split` operate on code points, which `List Char` mirrors
  one-to-one for the ASCII data handled here; where the distinction between
  the character count and the UTF-8 byte count matters it is made explicit
  through `byteLen`).  JSON values decoded by `json.loads` are modelled by the
  mutually inductive type `Json`/`JsonArr`/`JsonObj` (a Python dict is an
  insertion-ordered association list; `json.loads` never produces duplicate
  keys).  Fallible Python code paths (statements that can raise and are
  caught by the enclosing `except` with the message being dropped) are
  modelled with `Option`.
-/

/- ## Python character and string primitives -/

/- Model of `bytes.lower` applied to one byte: ASCII letters only. -/
def pyLower (c : Char) : Char :=
  if 65 ≤ c.toNat ∧ c.toNat ≤ 90 then Char.ofNat (c.toNat + 32) else c

/- Characters stripped by `bytes.strip()` with no argument. -/
def isPySpace (c : Char) : Bool :=
  c = ' ' ∨ c = Char.ofNat 9 ∨ c = Char.ofNat 10 ∨ c = Char.ofNat 13 ∨
    c = Char.ofNat 11 ∨ c = Char.ofNat 12

/- Model of `bytes.strip()`: remove ASCII whitespace from both ends. -/
def pyStrip (s : List Char) : List Char :=
  ((s.dropWhile isPySpace).reverse.dropWhile isPySpace).reverse

def isAsciiDigit (c : Char) : Bool :=
  48 ≤ c.toNat ∧ c.toNat ≤ 57

def digitVal (c : Char) : Nat := c.toNat - 48

def digitChar (n : Nat) : Char :=
  if n = 0 then '0' else if n = 1 then '1' else if n = 2 then '2'
  else if n = 3 then '3' else if n = 4 then '4' else if n = 5 then '5'
  else if n = 6 then '6' else if n = 7 then '7' else if n = 8 then '8' else '9'

/- Decimal digits of a natural number, most significant first, as produced by
   Python `str`/f-string formatting of a non-negative int.  The first argument
   is fuel; `natDigits` supplies enough of it. -/
def natDigitsF : Nat → Nat → List Char
  | 0, _ => []
  | f + 1, n => if n < 10 then [digitChar n] else natDigitsF f (n / 10) ++ [digitChar (n % 10)]

def natDigits (n : Nat) : List Char := natDigitsF (n + 1) n

/- Decimal rendering of a Python int (as produced by `json.dumps`). -/
def intDigits : Int → List Char
  | .ofNat n => natDigits n
  | .negSucc n => '-' :: natDigits (n + 1)

/- Digit tail of Python `int()` parsing: after a first digit has been
   consumed, accept further digits with single underscores allowed between
   digits (the grammar digit (`_`? digit)* of Python integer literals). -/
def pyNatRest (acc : Nat) : List Char → Option Nat
  | [] => some acc
  | c :: rest =>
      if isAsciiDigit c then pyNatRest (acc * 10 + digitVal c) rest
      else if c = '_' then
        match rest with
        | c' :: rest' =>
            if isAsciiDigit c' then pyNatRest (acc * 10 + digitVal c') rest' else none
        | [] => none
      else none

def pyNat : List Char → Option Nat
  | c :: rest => if isAsciiDigit c then pyNatRest (digitVal c) rest else none
  | [] => none

/- Model of Python `int(s)` on an already-stripped string: optional sign
   followed by a non-empty digit sequence; `none` models `ValueError`. -/
def pyInt : List Char → Option Int
  | [] => none
  | c :: rest =>
      if c = '-' then (pyNat rest).map (fun n => -(n : Int))
      else if c = '+' then (pyNat rest).map (fun n => (n : Int))
      else (pyNat (c :: rest)).map (fun n => (n : Int))

/- Model of `s.split(b"\r\n")` (split on leftmost non-overlapping "\r\n"). -/
def splitCRLF : List Char → List (List Char)
  | [] => [[]]
  | [c] => [[c]]
  | c :: c' :: rest =>
    if c = '\r' ∧ c' = '\n' then [] :: splitCRLF rest
    else
      match splitCRLF (c' :: rest) with
      | l :: ls => (c :: l) :: ls
      | [] => [[c]]

/- Everything after the first occurrence of `c`, or `none` when `c` is absent. -/
def afterFirstSep (c : Char) : List Char → Option (List Char)
  | [] => none
  | x :: rest => if x = c then some rest else afterFirstSep c rest

/- Model of `line.split(sep, 1)[1]` for a one-character separator. -/
def afterFirstColon (line : List Char) : Option (List Char) :=
  afterFirstSep ':' line

/- Model of `line.split(sep)[1]` for a one-character separator: the segment
   between the first and second occurrence (or the end of the line). -/
def secondSegment (c : Char) (line : List Char) : Option (List Char) :=
  (afterFirstSep c line).map (fun rest => rest.takeWhile (fun x => x ≠ c))

/- Model of `s.split(sep, n)[-1]` for a one-character separator: the part of
   `s` after the n-th occurrence of `sep` (everything after the last occurrence
   when fewer than n occurrences exist). -/
def splitTail (c : Char) : Nat → List Char → List Char
  | 0, s => s
  | n + 1, s =>
    match afterFirstSep c s with
    | none => s
    | some rest => splitTail c n rest

/- Model of Python `pat in s` substring membership for str/bytes. -/
def hasSubstr (pat : List Char) : List Char → Bool
  | [] => pat.isEmpty
  | c :: rest => pat.isPrefixOf (c :: rest) || hasSubstr pat rest

/- Test whether a byte sequence begins with "\r\n\r\n". -/
def startsCRLF2 (s : List Char) : Bool :=
  ['\r', '\n', '\r', '\n'].isPrefixOf s

/- Model of `buffer.find(b"\r\n\r\n")` (restricted to a found/not-found
   answer plus the index of the first occurrence). -/
def findSub4 : List Char → Option Nat
  | [] => none
  | c :: rest =>
      if startsCRLF2 (c :: rest) then some 0 else (findSub4 rest).map (· + 1)

/- Number of bytes of the UTF-8 encoding of one code point, as produced by
   Python `str.encode("utf-8")`. -/
def utf8Len (c : Char) : Nat :=
  if c.toNat < 128 then 1 else if c.toNat < 2048 then 2
  else if c.toNat < 65536 then 3 else 4

def byteLen (s : List Char) : Nat := (s.map utf8Len).sum

def allAscii (s : List Char) : Bool := s.all (fun c => c.toNat < 128)

/- ## The decoded message tree (result of `json.loads`) -/

mutual
inductive Json where
  | str (s : List Char)
  | num (n : Int)
  | bool (b : Bool)
  | null
  | arr (elems : JsonArr)
  | obj (entries : JsonObj)

inductive JsonArr where
  | nil
  | cons (head : Json) (tail : JsonArr)

inductive JsonObj where
  | nil
  | cons (key : List Char) (val : Json) (tail : JsonObj)
end

/- Value of a key in a dict (`d[k]` / `k in d`): first occurrence. -/
def lookupKV (k : List Char) : JsonObj → Option Json
  | .nil => none
  | .cons k' v rest => if k' = k then some v else lookupKV k rest

/- Model of `d[k] = v` on an existing key of a Python dict: replace the value
   in place, keeping the key order.  Keys produced by `json.loads` are unique;
   on the (unreachable) duplicate-key lists the first occurrence is replaced,
   matching `lookupKV`. -/
def setKV (k : List Char) (v : Json) : JsonObj → JsonObj
  | .nil => .nil
  | .cons k' v' rest =>
      if k' = k then .cons k' v rest else .cons k' v' (setKV k v rest)

def keysOf : JsonObj → List (List Char)
  | .nil => []
  | .cons k _ rest => k :: keysOf rest

def arrLen : JsonArr → Nat
  | .nil => 0
  | .cons _ rest => arrLen rest + 1

def arrGet : JsonArr → Nat → Option Json
  | .nil, _ => none
  | .cons x _, 0 => some x
  | .cons _ rest, n + 1 => arrGet rest n

/- Model of `"uri" in folder` when `folder` is a Python list: membership test,
   true exactly when some element equals the string "uri". -/
def arrHasStr (s : List Char) : JsonArr → Bool
  | .nil => false
  | .cons (.str t) rest => t = s || arrHasStr s rest
  | .cons _ rest => arrHasStr s rest

/- ## Shape equality of two message trees: identical nesting structure,
   identical object keys (order included), identical array lengths and
   element order, identical non-string leaves; string leaves may differ. -/

mutual
inductive SameShape : Json → Json → Prop
  | str : SameShape (.str s) (.str t)
  | num : SameShape (.num n) (.num n)
  | bool : SameShape (.bool b) (.bool b)
  | null : SameShape .null .null
  | arr : SameShapeArr xs ys → SameShape (.arr xs) (.arr ys)
  | obj : SameShapeObj kvs kvs' → SameShape (.obj kvs) (.obj kvs')

inductive SameShapeArr : JsonArr → JsonArr → Prop
  | nil : SameShapeArr .nil .nil
  | cons : SameShape x y → SameShapeArr xs ys → SameShapeArr (.cons x xs) (.cons y ys)

inductive SameShapeObj : JsonObj → JsonObj → Prop
  | nil : SameShapeObj .nil .nil
  | cons : SameShape v w → SameShapeObj kvs kvs' → SameShapeObj (.cons k v kvs) (.cons k w kvs')
end

/- ## src/lua/proxy.py — the URI translator `replace_uris` (lines 31-45) -/

/- The degenerate double-prefixed form checked first:
   `f"file://scp://{remote}/"` (proxy.py hardcodes the scp scheme). -/
def degPatA (remote : List Char) : List Char :=
  "file://scp://".data ++ remote ++ "/".data

/- String-leaf case of `replace_uris` (proxy.py lines 33-40): the degenerate
   `file://scp://remote/` form is checked before the generic pattern, and both
   branches strip the matched portion, substituting `"file://"` respectively
   `replacement`; any other string passes through unchanged. -/
def replace_uri_str (pattern replacement remote s : List Char) : List Char :=
  if (degPatA remote).isPrefixOf s then
    "file://".data ++ s.drop (degPatA remote).length
  else if pattern.isPrefixOf s then
    replacement ++ s.drop pattern.length
  else s

mutual
/- Model of `replace_uris(obj, pattern, replacement, remote)` of proxy.py:
   recursive rewrite of every string leaf, rebuilding dicts and lists. -/
def replace_uris (pattern replacement remote : List Char) : Json → Json
  | .str s => .str (replace_uri_str pattern replacement remote s)
  | .num n => .num n
  | .bool b => .bool b
  | .null => .null
  | .arr xs => .arr (replace_uris_arr pattern replacement remote xs)
  | .obj kvs => .obj (replace_uris_obj pattern replacement remote kvs)

def replace_uris_arr (pattern replacement remote : List Char) : JsonArr → JsonArr
  | .nil => .nil
  | .cons x xs =>
      .cons (replace_uris pattern replacement remote x)
        (replace_uris_arr pattern replacement remote xs)

def replace_uris_obj (pattern replacement remote : List Char) : JsonObj → JsonObj
  | .nil => .nil
  | .cons k v kvs =>
      .cons k (replace_uris pattern replacement remote v)
        (replace_uris_obj pattern replacement remote kvs)
end

/- The direction instantiations from proxy.py main(), lines 252-255. -/
def incomingPatternA (remote : List Char) : List Char := "scp://".data ++ remote ++ "/".data

def incomingReplacementA : List Char := "file://".data

def outgoingPatternA : List Char := "file://".data

def outgoingReplacementA (remote : List Char) : List Char := "scp://".data ++ remote ++ "/".data

/- ## src/lua/remote-lsp/proxy.py — `deep_replace_uris` (lines 31-59) -/

/- The special textDocument handling of deep_replace_uris lines 47-51, applied
   to the already-recursed value of a "textDocument" key: when that value is a
   dict containing "uri", the uri value is re-examined against the pattern;
   a non-string uri raises AttributeError on `.startswith` (modelled `none`,
   the enclosing handler drops the message). -/
def tdFix (pattern replacement : List Char) : Json → Option Json
  | .obj kvs =>
    match lookupKV "uri".data kvs with
    | some (.str u) =>
        if pattern.isPrefixOf u then
          some (.obj (setKV "uri".data (.str (replacement ++ u.drop pattern.length)) kvs))
        else some (.obj kvs)
    | some _ => none
    | none => some (.obj kvs)
  | v => some v

mutual
/- Model of `deep_replace_uris(obj, pattern, replacement, stream_name)` of
   remote-lsp/proxy.py: string leaves matching the pattern are rewritten; dicts
   and lists are traversed in place; a "textDocument" entry additionally goes
   through `tdFix` after the recursion. -/
def deep_replace_uris (pattern replacement : List Char) : Json → Option Json
  | .str s =>
      if pattern.isPrefixOf s then
        some (.str (replacement ++ s.drop pattern.length))
      else some (.str s)
  | .num n => some (.num n)
  | .bool b => some (.bool b)
  | .null => some .null
  | .arr xs => (deep_replace_arr pattern replacement xs).map .arr
  | .obj kvs => (deep_replace_obj pattern replacement kvs).map .obj

def deep_replace_arr (pattern replacement : List Char) : JsonArr → Option JsonArr
  | .nil => some .nil
  | .cons x xs =>
    match deep_replace_uris pattern replacement x with
    | none => none
    | some x' =>
      match deep_replace_arr pattern replacement xs with
      | none => none
      | some xs' => some (.cons x' xs')

def deep_replace_obj (pattern replacement : List Char) : JsonObj → Option JsonObj
  | .nil => some .nil
  | .cons k v kvs =>
    match deep_replace_uris pattern replacement v with
    | none => none
    | some v' =>
      match (if k = "textDocument".data then tdFix pattern replacement v' else some v') with
      | none => none
      | some v'' =>
        match deep_replace_obj pattern replacement kvs with
        | none => none
        | some kvs' => some (.cons k v'' kvs')
end

/- ## remote-lsp/proxy.py handle_stream, editor→server fixes (lines 148-176) -/

/- Prefix `f"file://{protocol}://{remote}/"` of lines 158, 174. -/
def wrappedPat (protocol remote : List Char) : List Char :=
  "file://".data ++ protocol ++ "://".data ++ remote ++ "/".data

/- Prefix `f"{protocol}://{remote}/"` of line 165 (also the outgoing
   replacement of main(), line 309). -/
def schemePat (protocol remote : List Char) : List Char :=
  protocol ++ "://".data ++ remote ++ "/".data

/- Line 159 / line 175: `"file:///" + s.split("/", 6)[-1]`. -/
def splitFix6 (s : List Char) : List Char := "file:///".data ++ splitTail '/' 6 s

/- Line 166: `"/" + s.split("/", 4)[-1]`. -/
def splitFix4 (s : List Char) : List Char := '/' :: splitTail '/' 4 s

/- Lines 156-160: rewrite a string rootUri wrapped in the degenerate
   double-scheme form.  Non-string or absent rootUri values are skipped. -/
def fixRootUri (protocol remote : List Char) (p : JsonObj) : JsonObj :=
  match lookupKV "rootUri".data p with
  | some (.str u) =>
      if (wrappedPat protocol remote).isPrefixOf u then
        setKV "rootUri".data (.str (splitFix6 u)) p
      else p
  | _ => p

/- Lines 163-167: rewrite a string rootPath starting with `scheme://remote/`. -/
def fixRootPath (protocol remote : List Char) (p : JsonObj) : JsonObj :=
  match lookupKV "rootPath".data p with
  | some (.str u) =>
      if (schemePat protocol remote).isPrefixOf u then
        setKV "rootPath".data (.str (splitFix4 u)) p
      else p
  | _ => p

/- Lines 171-176, one workspace folder: a dict with a string "uri" may be
   rewritten; a dict without a string "uri" is skipped.  Non-dict folders
   reproduce the Python evaluation of `"uri" in folder`: substring test on a
   string, membership test on a list (then `folder["uri"]` raises TypeError),
   and TypeError on every other type; `none` models the raise (the enclosing
   handler drops the message). -/
def fixFolder (protocol remote : List Char) : Json → Option Json
  | .obj kvs =>
    match lookupKV "uri".data kvs with
    | some (.str u) =>
        if (wrappedPat protocol remote).isPrefixOf u then
          some (.obj (setKV "uri".data (.str (splitFix6 u)) kvs))
        else some (.obj kvs)
    | some _ => some (.obj kvs)
    | none => some (.obj kvs)
  | .str s => if hasSubstr "uri".data s then none else some (.str s)
  | .arr xs => if arrHasStr "uri".data xs then none else some (.arr xs)
  | _ => none

def fixFolderArr (protocol remote : List Char) : JsonArr → Option JsonArr
  | .nil => some .nil
  | .cons f fs =>
    match fixFolder protocol remote f with
    | none => none
    | some f' =>
      match fixFolderArr protocol remote fs with
      | none => none
      | some fs' => some (.cons f' fs')

/- Lines 170-176: the workspaceFolders value must be a list to be touched. -/
def fixFolders (protocol remote : List Char) (p : JsonObj) : Option JsonObj :=
  match lookupKV "workspaceFolders".data p with
  | some (.arr xs) =>
    match fixFolderArr protocol remote xs with
    | none => none
    | some xs' => some (setKV "workspaceFolders".data (.arr xs') p)
  | _ => some p

/- Lines 149-176 as one function on the decoded message: the editor→server
   rewriting of remote-lsp/proxy.py touches only params.rootUri,
   params.rootPath and the uri fields of params.workspaceFolders entries.  A
   message without a dict "params" is forwarded untouched. -/
def toServerTransform (protocol remote : List Char) : Json → Option Json
  | .obj kvs =>
    match lookupKV "params".data kvs with
    | some (.obj p) =>
      match fixFolders protocol remote (fixRootPath protocol remote (fixRootUri protocol remote p)) with
      | some p' => some (.obj (setKV "params".data (.obj p') kvs))
      | none => none
    | _ => some (.obj kvs)
  | m => some m

/- ## Content-Length parsing -/

/- proxy.py lines 93-99: case-SENSITIVE match on `Content-Length:`, value
   taken from `line.split(b":")[1]` (the segment between the first and second
   colon), stripped and parsed by `int`; the loop breaks on the first line
   that parses, so the first success wins. -/
def lineCLA (line : List Char) : Option Int :=
  if "Content-Length:".data.isPrefixOf line then
    match secondSegment ':' line with
    | some seg => pyInt (pyStrip seg)
    | none => none
  else none

def parseCLA (headerData : List Char) : Option Int :=
  (splitCRLF headerData).foldl
    (fun acc line => match acc with | some n => some n | none => lineCLA line) none

/- remote-lsp/proxy.py lines 100-107: case-INSENSITIVE match via
   `line.lower().startswith(b"content-length:")`, value from
   `line.split(b":", 1)[1]` (everything after the first colon); no break, so
   the last line that parses wins. -/
def lineCLB (line : List Char) : Option Int :=
  if "content-length:".data.isPrefixOf (line.map pyLower) then
    match afterFirstColon line with
    | some seg => pyInt (pyStrip seg)
    | none => none
  else none

def parseCLB (headerData : List Char) : Option Int :=
  (splitCRLF headerData).foldl
    (fun acc line => match lineCLB line with | some n => some n | none => acc) none

/- ## json.dumps (default options: ensure_ascii, separators ", " / ": ") -/

def hexDigit (n : Nat) : Char :=
  if n = 0 then '0' else if n = 1 then '1' else if n = 2 then '2'
  else if n = 3 then '3' else if n = 4 then '4' else if n = 5 then '5'
  else if n = 6 then '6' else if n = 7 then '7' else if n = 8 then '8'
  else if n = 9 then '9' else if n = 10 then 'a' else if n = 11 then 'b'
  else if n = 12 then 'c' else if n = 13 then 'd' else if n = 14 then 'e' else 'f'

def uEsc4 (n : Nat) : List Char :=
  ['\\', 'u', hexDigit (n / 4096 % 16), hexDigit (n / 256 % 16),
    hexDigit (n / 16 % 16), hexDigit (n % 16)]

/- Escaping of one character inside a JSON string, following the default
   (ensure_ascii) encoder: named escapes, printable ASCII verbatim, \uXXXX
   for everything else, surrogate pairs above the BMP. -/
def escapeChar (c : Char) : List Char :=
  if c = '"' then ['\\', '"']
  else if c = '\\' then ['\\', '\\']
  else if c = '\n' then ['\\', 'n']
  else if c = '\r' then ['\\', 'r']
  else if c = '\t' then ['\\', 't']
  else if c = Char.ofNat 8 then ['\\', 'b']
  else if c = Char.ofNat 12 then ['\\', 'f']
  else if 32 ≤ c.toNat ∧ c.toNat ≤ 126 then [c]
  else if c.toNat < 65536 then uEsc4 c.toNat
  else uEsc4 (55296 + (c.toNat - 65536) / 1024) ++ uEsc4 (56320 + (c.toNat - 65536) % 1024)

def dumpStr (s : List Char) : List Char :=
  '"' :: s.foldr (fun c acc => escapeChar c ++ acc) ['"']

mutual
/- Model of `json.dumps(message)` with default arguments. -/
def dumps : Json → List Char
  | .str s => dumpStr s
  | .num n => intDigits n
  | .bool true => "true".data
  | .bool false => "false".data
  | .null => "null".data
  | .arr .nil => "[]".data
  | .arr (.cons x xs) => '[' :: (dumps x ++ dumpsArrRest xs) ++ [']']
  | .obj .nil => [Char.ofNat 123, Char.ofNat 125]
  | .obj (.cons k v kvs) =>
      Char.ofNat 123 :: (dumpStr k ++ ':' :: ' ' :: dumps v ++ dumpsObjRest kvs) ++ [Char.ofNat 125]

def dumpsArrRest : JsonArr → List Char
  | .nil => []
  | .cons x xs => ',' :: ' ' :: dumps x ++ dumpsArrRest xs

def dumpsObjRest : JsonObj → List Char
  | .nil => []
  | .cons k v kvs => ',' :: ' ' :: dumpStr k ++ ':' :: ' ' :: dumps v ++ dumpsObjRest kvs
end

/- ## Frame writing (proxy.py lines 147-151, remote-lsp/proxy.py 187-192) -/

/- The emitted frame: `f"Content-Length: {len(new_content)}\r\n\r\n"` followed
   by the body; the length is recomputed from the body being written. -/
def writeMessage (body : List Char) : List Char :=
  "Content-Length: ".data ++ natDigits body.length ++ "\r\n\r\n".data ++ body

/- ## Per-message processing after json.loads -/

/- Model of `message.get("method") == "exit"` on a dict. -/
def isExitMethod (kvs : JsonObj) : Bool :=
  match lookupKV "method".data kvs with
  | some (.str s) => s = "exit".data
  | _ => false

/- proxy.py lines 130-151, one decoded message: on the editor→server
   direction ("neovim to ssh") a non-dict message raises AttributeError at
   `message.get` and is dropped, and a dict message whose method is "exit"
   sets the shutdown flag; the message is then translated by `replace_uris`,
   re-serialized and framed.  Result: (new shutdown flag, emitted frame or
   `none` when the message is dropped). -/
def handleMessageA (neovimToSsh : Bool) (pattern replacement remote : List Char)
    (st : Bool) (m : Json) : Bool × Option (List Char) :=
  if neovimToSsh then
    match m with
    | .obj kvs =>
        ((if isExitMethod kvs then true else st),
          some (writeMessage (dumps (replace_uris pattern replacement remote (.obj kvs)))))
    | _ => (st, none)
  else
    (st, some (writeMessage (dumps (replace_uris pattern replacement remote m))))

/- remote-lsp/proxy.py lines 138-192, one decoded message.  Editor→server:
   non-dict messages are dropped at `message.get`; "exit" sets the flag; the
   rootUri/rootPath/workspaceFolders fixes may raise (message dropped, flag
   kept).  Server→editor: dict messages go through `deep_replace_uris` with
   the hardcoded "file:///" pattern (a raise drops the message); non-dict
   messages are forwarded without translation. -/
def handleMessageB (neovimToSsh : Bool) (protocol remote : List Char)
    (st : Bool) (m : Json) : Bool × Option (List Char) :=
  if neovimToSsh then
    match m with
    | .obj kvs =>
      match toServerTransform protocol remote (.obj kvs) with
      | some m' => ((if isExitMethod kvs then true else st), some (writeMessage (dumps m')))
      | none => ((if isExitMethod kvs then true else st), none)
    | _ => (st, none)
  else
    match m with
    | .obj kvs =>
      match deep_replace_uris "file:///".data (schemePat protocol remote) (.obj kvs) with
      | some m' => (st, some (writeMessage (dumps m')))
      | none => (st, none)
    | m => (st, some (writeMessage (dumps m)))

/- The read loop of proxy.py handle_stream at message granularity: messages
   are taken in order while `shutdown_requested` is unset; each one is
   processed by `handleMessageA`; the loop re-checks the flag before the next
   message, so a message that set the flag is still fully forwarded and
   nothing after it is processed.  Result: (emitted frames in order, final
   flag). -/
def runA (neovimToSsh : Bool) (pattern replacement remote : List Char) :
    Bool → List Json → List (List Char) × Bool
  | st, [] => ([], st)
  | true, _ :: _ => ([], true)
  | false, m :: ms =>
    ((handleMessageA neovimToSsh pattern replacement remote false m).2.toList ++
        (runA neovimToSsh pattern replacement remote
          (handleMessageA neovimToSsh pattern replacement remote false m).1 ms).1,
      (runA neovimToSsh pattern replacement remote
        (handleMessageA neovimToSsh pattern replacement remote false m).1 ms).2)

/- ## Framing loop models -/

/- Python slice `l[:n]` for an int that may be negative. -/
def pyTake (n : Int) (l : List Char) : List Char :=
  if 0 ≤ n then l.take n.toNat else l.take (l.length - n.natAbs)

/- Python slice `l[n:]` for an int that may be negative. -/
def pyDrop (n : Int) (l : List Char) : List Char :=
  if 0 ≤ n then l.drop n.toNat else l.drop (l.length - n.natAbs)

/- remote-lsp/proxy.py lines 86-211, the buffered deframing loop applied to a
   fully received byte sequence: extract complete header blocks, skip blocks
   without a valid Content-Length (lines 109-113: `parsing_headers = True;
   continue`), slice out declared bodies, stop when no complete header or
   body remains.  Returns the extracted message contents in order; the first
   argument is fuel, `drainAllB` supplies enough of it. -/
def drainB : Nat → List Char → List (List Char)
  | 0, _ => []
  | fuel + 1, buf =>
    match findSub4 buf with
    | none => []
    | some i =>
      match parseCLB (buf.take i) with
      | none => drainB fuel (buf.drop (i + 4))
      | some n =>
        if n ≤ ((buf.drop (i + 4)).length : Int) then
          pyTake n (buf.drop (i + 4)) :: drainB fuel (pyDrop n (buf.drop (i + 4)))
        else []

def drainAllB (buf : List Char) : List (List Char) := drainB (buf.length + 1) buf

/- proxy.py lines 62-118, the per-byte deframing loop applied to a fully
   received byte sequence: read header bytes to the first `\r\n\r\n`
   (returning at EOF), parse Content-Length (lines 101-103: `continue` when
   no valid header was found), read exactly the declared number of bytes
   (an empty body when the declared length is not positive).  Returns the
   extracted message contents in order. -/
def readFramesA : Nat → List Char → List (List Char)
  | 0, _ => []
  | fuel + 1, stream =>
    match findSub4 stream with
    | none => []
    | some i =>
      match parseCLA (stream.take (i + 4)) with
      | none => readFramesA fuel (stream.drop (i + 4))
      | some n =>
        if n ≤ 0 then [] :: readFramesA fuel (stream.drop (i + 4))
        else if n ≤ ((stream.drop (i + 4)).length : Int) then
          (stream.drop (i + 4)).take n.toNat ::
            readFramesA fuel ((stream.drop (i + 4)).drop n.toNat)
        else []

def readFramesAllA (stream : List Char) : List (List Char) :=
  readFramesA (stream.length + 1) stream

/- ## Masking the three rewritable spots of the editor→server fix (C9) -/

/- Replace the value of the "uri" key of a dict folder by null. -/
def maskFolder : Json → Json
  | .obj kvs => .obj (setKV "uri".data .null kvs)
  | f => f

def maskFolderArr : JsonArr → JsonArr
  | .nil => .nil
  | .cons f fs => .cons (maskFolder f) (maskFolderArr fs)

/- Replace the values of rootUri and rootPath by null and mask every entry of
   a workspaceFolders list. -/
def maskParamsEntries : JsonObj → JsonObj
  | .nil => .nil
  | .cons k v rest =>
    if k = "rootUri".data ∨ k = "rootPath".data then .cons k .null (maskParamsEntries rest)
    else if k = "workspaceFolders".data then
      .cons k (match v with | .arr xs => .arr (maskFolderArr xs) | v => v) (maskParamsEntries rest)
    else .cons k v (maskParamsEntries rest)

def maskMsgEntries : JsonObj → JsonObj
  | .nil => .nil
  | .cons k v rest =>
    if k = "params".data then
      .cons k (match v with | .obj p => .obj (maskParamsEntries p) | v => v) (maskMsgEntries rest)
    else .cons k v (maskMsgEntries rest)

/- Erase exactly the positions the editor→server fix of remote-lsp/proxy.py
   is allowed to rewrite; two messages with equal masks agree everywhere
   else. -/
def maskMsg : Json → Json
  | .obj kvs => .obj (maskMsgEntries kvs)
  | m => m

/- Value of a digit string, used to state the decimal round trip. -/
def valD (s : List Char) : Nat := s.foldl (fun a c => a * 10 + digitVal c) 0

/- Model of `message.get("method") == "exit"` on an arbitrary decoded value
   (false on non-dicts, where the Python code instead raises before the
   comparison). -/
def isExitJson : Json → Bool
  | .obj kvs => isExitMethod kvs
  | _ => false

/- ## Helper lemmas: prefixes, digits, parsing -/

theorem isPrefixOf_append_self (p rest : List Char) : p.isPrefixOf (p ++ rest) = true := by
  simp [List.isPrefixOf_iff_prefix]

theorem isPrefixOf_ne_head (a b : Char) (as bs : List Char) (h : a ≠ b) :
    (a :: as).isPrefixOf (b :: bs) = false := by
  simp [List.isPrefixOf_cons₂, h]

theorem drop_len_append (p rest : List Char) : (p ++ rest).drop p.length = rest :=
  List.drop_left p rest

theorem digitChar_isDigit (n : Nat) : isAsciiDigit (digitChar n) = true := by
  unfold digitChar
  repeat' split
  all_goals decide

theorem ne_of_digit (c d : Char) (h : isAsciiDigit c = true) (hd : isAsciiDigit d = false) :
    c ≠ d := by
  intro e
  rw [e, hd] at h
  cases h

theorem digitVal_digitChar (n : Nat) (h : n < 10) : digitVal (digitChar n) = n := by
  interval_cases n <;> decide

theorem natDigitsF_digits (f : Nat) : ∀ n, ∀ c ∈ natDigitsF f n, isAsciiDigit c = true := by
  induction f with
  | zero => intro n c hc; cases hc
  | succ f ih =>
    intro n c hc
    simp only [natDigitsF] at hc
    by_cases h : n < 10
    · rw [if_pos h] at hc
      rw [List.mem_singleton] at hc
      rw [hc]
      exact digitChar_isDigit n
    · rw [if_neg h] at hc
      rcases List.mem_append.mp hc with h1 | h1
      · exact ih _ c h1
      · rw [List.mem_singleton] at h1
        rw [h1]
        exact digitChar_isDigit _

theorem natDigitsF_ne_nil (f n : Nat) : natDigitsF (f + 1) n ≠ [] := by
  simp only [natDigitsF]
  by_cases h : n < 10
  · rw [if_pos h]; simp
  · rw [if_neg h]; simp

theorem natDigits_digits (n : Nat) : ∀ c ∈ natDigits n, isAsciiDigit c = true :=
  natDigitsF_digits (n + 1) n

theorem natDigits_ne_nil (n : Nat) : natDigits n ≠ [] := natDigitsF_ne_nil n n

theorem pyNatRest_digits (s : List Char) (h : ∀ c ∈ s, isAsciiDigit c = true) : ∀ acc,
    pyNatRest acc s = some (s.foldl (fun a c => a * 10 + digitVal c) acc) := by
  induction s with
  | nil => intro acc; rfl
  | cons c rest ih =>
    intro acc
    have hc : isAsciiDigit c = true := h c (List.mem_cons_self c rest)
    rw [pyNatRest.eq_def]
    simp only [hc, if_true, List.foldl_cons]
    exact ih (fun d hd => h d (List.mem_cons_of_mem c hd)) _

theorem pyNat_digits (c : Char) (rest : List Char)
    (h : ∀ d ∈ c :: rest, isAsciiDigit d = true) :
    pyNat (c :: rest) = some (valD (c :: rest)) := by
  have hc : isAsciiDigit c = true := h c (List.mem_cons_self c rest)
  simp only [pyNat, hc, if_true, valD, List.foldl_cons]
  rw [pyNatRest_digits rest (fun d hd => h d (List.mem_cons_of_mem c hd))]
  norm_num

theorem valD_natDigitsF (f : Nat) : ∀ n, n < f → valD (natDigitsF f n) = n := by
  induction f with
  | zero => intro n h; omega
  | succ f ih =>
    intro n hn
    simp only [natDigitsF]
    by_cases h : n < 10
    · rw [if_pos h]
      simp only [valD, List.foldl_cons, List.foldl_nil]
      rw [digitVal_digitChar n h]
      omega
    · rw [if_neg h]
      have h10 : 10 ≤ n := Nat.le_of_not_lt h
      have hdiv : n / 10 < f := by
        have h1 : n / 10 < n := Nat.div_lt_self (by omega) (by omega)
        omega
      simp only [valD, List.foldl_append, List.foldl_cons, List.foldl_nil]
      have := ih (n / 10) hdiv
      simp only [valD] at this
      rw [this, digitVal_digitChar _ (Nat.mod_lt n (by omega))]
      omega

theorem valD_natDigits (n : Nat) : valD (natDigits n) = n :=
  valD_natDigitsF (n + 1) n (Nat.lt_succ_self n)

theorem pyNat_natDigits (n : Nat) : pyNat (natDigits n) = some n := by
  rcases List.exists_cons_of_ne_nil (natDigits_ne_nil n) with ⟨c, rest, e⟩
  rw [e]
  rw [pyNat_digits c rest (by rw [← e]; exact natDigits_digits n)]
  rw [← e, valD_natDigits]

theorem pyInt_natDigits (n : Nat) : pyInt (natDigits n) = some (n : Int) := by
  rcases List.exists_cons_of_ne_nil (natDigits_ne_nil n) with ⟨c, rest, e⟩
  have hc : isAsciiDigit c = true := by
    have := natDigits_digits n
    rw [e] at this
    exact this c (List.mem_cons_self c rest)
  rw [e]
  simp only [pyInt]
  rw [if_neg (ne_of_digit c '-' hc (by decide)), if_neg (ne_of_digit c '+' hc (by decide))]
  rw [← e, pyNat_natDigits]
  rfl

theorem dropWhile_of_all_false (p : Char → Bool) (s : List Char)
    (h : ∀ c ∈ s, p c = false) : s.dropWhile p = s := by
  cases s with
  | nil => rfl
  | cons c rest =>
    rw [List.dropWhile_cons, h c (List.mem_cons_self c rest)]
    simp

theorem takeWhile_of_all_true (p : Char → Bool) (s : List Char)
    (h : ∀ c ∈ s, p c = true) : s.takeWhile p = s := by
  induction s with
  | nil => rfl
  | cons c rest ih =>
    rw [List.takeWhile_cons, h c (List.mem_cons_self c rest)]
    simp only [if_true]
    rw [ih (fun d hd => h d (List.mem_cons_of_mem c hd))]

theorem pyStrip_no_space (s : List Char) (h : ∀ c ∈ s, isPySpace c = false) :
    pyStrip s = s := by
  unfold pyStrip
  rw [dropWhile_of_all_false _ _ h]
  rw [dropWhile_of_all_false _ _ (fun c hc => h c (List.mem_reverse.mp hc))]
  exact List.reverse_reverse s

theorem digit_not_space (c : Char) (h : isAsciiDigit c = true) : isPySpace c = false := by
  simp only [isAsciiDigit, decide_eq_true_eq] at h
  simp only [isPySpace, decide_eq_false_iff_not]
  push_neg
  refine ⟨?_, ?_, ?_, ?_, ?_, ?_⟩ <;>
    (intro e; rw [e] at h; exact absurd h (by decide))

theorem pyStrip_space_all (s : List Char) (h : ∀ c ∈ s, isPySpace c = false) :
    pyStrip (' ' :: s) = s := by
  unfold pyStrip
  rw [List.dropWhile_cons]
  have hsp : isPySpace ' ' = true := by decide
  rw [hsp]
  simp only [if_true]
  rw [dropWhile_of_all_false _ _ h]
  rw [dropWhile_of_all_false _ _ (fun c hc => h c (List.mem_reverse.mp hc))]
  exact List.reverse_reverse s

theorem splitCRLF_no_cr (s : List Char) (h : '\r' ∉ s) : splitCRLF s = [s] := by
  induction s with
  | nil => rfl
  | cons c rest ih =>
    cases rest with
    | nil => rfl
    | cons c' rest' =>
      have hc : c ≠ '\r' := by
        intro e
        exact h (by rw [e]; exact List.mem_cons_self _ _)
      have e1 : splitCRLF (c :: c' :: rest') =
          if c = '\r' ∧ c' = '\n' then [] :: splitCRLF rest'
          else
            match splitCRLF (c' :: rest') with
            | l :: ls => (c :: l) :: ls
            | [] => [[c]] := rfl
      rw [e1, if_neg (fun hand => hc hand.1)]
      rw [ih (fun hm => h (List.mem_cons_of_mem c hm))]

theorem splitCRLF_append (xs : List Char) (ys : List Char) (h : '\r' ∉ xs) :
    splitCRLF (xs ++ '\r' :: '\n' :: ys) = xs :: splitCRLF ys := by
  induction xs with
  | nil =>
    have e1 : splitCRLF ('\r' :: '\n' :: ys) =
        if ('\r' : Char) = '\r' ∧ ('\n' : Char) = '\n' then [] :: splitCRLF ys
        else
          match splitCRLF ('\n' :: ys) with
          | l :: ls => ('\r' :: l) :: ls
          | [] => [['\r']] := rfl
    rw [List.nil_append, e1, if_pos ⟨rfl, rfl⟩]
  | cons c xs' ih =>
    have hc : c ≠ '\r' := by
      intro e
      exact h (by rw [e]; exact List.mem_cons_self _ _)
    have ih' := ih (fun hm => h (List.mem_cons_of_mem c hm))
    cases xs' with
    | nil =>
      have e1 : splitCRLF (c :: '\r' :: '\n' :: ys) =
          if c = '\r' ∧ ('\r' : Char) = '\n' then [] :: splitCRLF ('\n' :: ys)
          else
            match splitCRLF ('\r' :: '\n' :: ys) with
            | l :: ls => (c :: l) :: ls
            | [] => [[c]] := rfl
      rw [List.cons_append, List.nil_append]
      rw [e1, if_neg (fun hand => hc hand.1)]
      rw [List.nil_append] at ih'
      rw [ih']
    | cons c'' xs'' =>
      have e1 : splitCRLF (c :: ((c'' :: xs'') ++ '\r' :: '\n' :: ys)) =
          if c = '\r' ∧ c'' = '\n' then [] :: splitCRLF (xs'' ++ '\r' :: '\n' :: ys)
          else
            match splitCRLF ((c'' :: xs'') ++ '\r' :: '\n' :: ys) with
            | l :: ls => (c :: l) :: ls
            | [] => [[c]] := rfl
      rw [List.cons_append, e1, if_neg (fun hand => hc hand.1)]
      rw [ih']

theorem startsCRLF2_cons_ne (c : Char) (t : List Char) (h : c ≠ '\r') :
    startsCRLF2 (c :: t) = false := by
  unfold startsCRLF2
  rw [List.isPrefixOf_cons₂]
  have : (('\r' : Char) == c) = false := beq_eq_false_iff_ne.mpr (Ne.symm h)
  rw [this, Bool.false_and]

theorem findSub4_here (rest : List Char) :
    findSub4 ('\r' :: '\n' :: '\r' :: '\n' :: rest) = some 0 := by
  have e1 : findSub4 ('\r' :: '\n' :: '\r' :: '\n' :: rest) =
      if startsCRLF2 ('\r' :: '\n' :: '\r' :: '\n' :: rest) then some 0
      else (findSub4 ('\n' :: '\r' :: '\n' :: rest)).map (· + 1) := rfl
  rw [e1, if_pos]
  simp [startsCRLF2, List.isPrefixOf]

theorem findSub4_prepend (xs rest : List Char) (h : '\r' ∉ xs) :
    findSub4 (xs ++ '\r' :: '\n' :: '\r' :: '\n' :: rest) = some xs.length := by
  induction xs with
  | nil =>
    rw [List.nil_append, findSub4_here]
    rfl
  | cons c xs' ih =>
    have hc : c ≠ '\r' := by
      intro e
      exact h (by rw [e]; exact List.mem_cons_self _ _)
    have e1 : findSub4 (c :: (xs' ++ '\r' :: '\n' :: '\r' :: '\n' :: rest)) =
        if startsCRLF2 (c :: (xs' ++ '\r' :: '\n' :: '\r' :: '\n' :: rest)) then some 0
        else (findSub4 (xs' ++ '\r' :: '\n' :: '\r' :: '\n' :: rest)).map (· + 1) := rfl
    rw [List.cons_append, e1, startsCRLF2_cons_ne c _ hc]
    simp only [Bool.false_eq_true, if_false]
    rw [ih (fun hm => h (List.mem_cons_of_mem c hm))]
    simp

theorem afterFirstSep_skip (c : Char) (xs ys : List Char) (h : c ∉ xs) :
    afterFirstSep c (xs ++ c :: ys) = some ys := by
  induction xs with
  | nil =>
    rw [List.nil_append]
    unfold afterFirstSep
    rw [if_pos rfl]
  | cons x xs' ih =>
    have hx : x ≠ c := by
      intro e
      exact h (by rw [e]; exact List.mem_cons_self _ _)
    rw [List.cons_append]
    unfold afterFirstSep
    rw [if_neg hx]
    exact ih (fun hm => h (List.mem_cons_of_mem x hm))

theorem lower_no_colon (name : List Char) (h : name.map pyLower = "content-length".data) :
    ':' ∉ name := by
  intro hm
  have h1 : pyLower ':' ∈ name.map pyLower := List.mem_map_of_mem pyLower hm
  rw [h] at h1
  have : pyLower ':' = ':' := by decide
  rw [this] at h1
  exact absurd h1 (by decide)

theorem lineCLB_cased (name value : List Char) (n : Int)
    (hname : name.map pyLower = "content-length".data)
    (hval : pyInt (pyStrip value) = some n) :
    lineCLB (name ++ ':' :: value) = some n := by
  unfold lineCLB
  have hmap : (name ++ ':' :: value).map pyLower =
      "content-length:".data ++ value.map pyLower := by
    rw [List.map_append, hname, List.map_cons]
    have hcol : pyLower ':' = ':' := by decide
    rw [hcol]
    have : ("content-length:".data : List Char) = "content-length".data ++ [':'] := by decide
    rw [this, List.append_assoc]
    rfl
  rw [hmap]
  rw [if_pos]
  · unfold afterFirstColon
    rw [afterFirstSep_skip ':' name value (lower_no_colon name hname)]
    exact hval
  · rw [isPrefixOf_append_self]

theorem parseCLB_single_line (name value : List Char) (n : Int)
    (hname : name.map pyLower = "content-length".data)
    (hval : pyInt (pyStrip value) = some n)
    (hcr : '\r' ∉ name ++ ':' :: value) :
    parseCLB (name ++ ':' :: value) = some n := by
  unfold parseCLB
  rw [splitCRLF_no_cr _ hcr]
  rw [List.foldl_cons, List.foldl_nil]
  rw [lineCLB_cased name value n hname hval]

theorem lineCLA_exact (value : List Char) (n : Int) (hcol : ':' ∉ value)
    (hval : pyInt (pyStrip value) = some n) :
    lineCLA ("Content-Length:".data ++ value) = some n := by
  unfold lineCLA
  rw [if_pos (isPrefixOf_append_self _ _)]
  unfold secondSegment
  have e : ("Content-Length:".data : List Char) ++ value =
      "Content-Length".data ++ ':' :: value := by
    have : ("Content-Length:".data : List Char) = "Content-Length".data ++ [':'] := by decide
    rw [this, List.append_assoc]
    rfl
  rw [e, afterFirstSep_skip ':' _ _ (by decide)]
  simp only [Option.map_some']
  rw [takeWhile_of_all_true _ value ?_]
  · exact hval
  · intro c hc
    simp only [decide_eq_true_eq]
    intro e2
    rw [e2] at hc
    exact hcol hc

theorem parseCLA_block (value : List Char) (n : Int) (hcol : ':' ∉ value)
    (hcr : '\r' ∉ "Content-Length:".data ++ value)
    (hval : pyInt (pyStrip value) = some n) :
    parseCLA (("Content-Length:".data ++ value) ++ '\r' :: '\n' :: '\r' :: '\n' :: []) = some n := by
  unfold parseCLA
  have e : (("Content-Length:".data ++ value) ++ '\r' :: '\n' :: '\r' :: '\n' :: []) =
      (("Content-Length:".data ++ value) ++ '\r' :: '\n' :: ('\r' :: '\n' :: [])) := rfl
  rw [e, splitCRLF_append _ _ hcr]
  have e2 : ('\r' :: '\n' :: ([] : List Char)) = [] ++ '\r' :: '\n' :: [] := rfl
  rw [e2, splitCRLF_append _ _ (by decide)]
  rw [splitCRLF_no_cr [] (by decide)]
  rw [List.foldl_cons, List.foldl_cons, List.foldl_cons, List.foldl_nil]
  rw [lineCLA_exact value n hcol hval]

theorem writeMessage_decomp (body : List Char) :
    writeMessage body = ("Content-Length: ".data ++ natDigits body.length) ++
      '\r' :: '\n' :: '\r' :: '\n' :: body := by
  unfold writeMessage
  rw [List.append_assoc]
  rfl

theorem hdrA_no_cr (L : Nat) : '\r' ∉ "Content-Length: ".data ++ natDigits L := by
  intro hm
  rcases List.mem_append.mp hm with h1 | h1
  · exact absurd h1 (by decide)
  · exact absurd (natDigits_digits _ '\r' h1) (by decide)

theorem parseCLB_header (L : Nat) :
    parseCLB ("Content-Length: ".data ++ natDigits L) = some (L : Int) := by
  have e : ("Content-Length: ".data : List Char) ++ natDigits L =
      "Content-Length".data ++ ':' :: (' ' :: natDigits L) := by
    have h0 : ("Content-Length: ".data : List Char) = "Content-Length".data ++ ':' :: [' '] := by
      decide
    rw [h0, List.append_assoc]
    rfl
  rw [e]
  apply parseCLB_single_line
  · decide
  · rw [pyStrip_space_all _ (fun c hc => digit_not_space c (natDigits_digits L c hc))]
    exact pyInt_natDigits L
  · rw [← e]
    exact hdrA_no_cr L

theorem parseCLA_header (L : Nat) :
    parseCLA (("Content-Length: ".data ++ natDigits L) ++ '\r' :: '\n' :: '\r' :: '\n' :: []) =
      some (L : Int) := by
  have e : ("Content-Length: ".data : List Char) ++ natDigits L =
      "Content-Length:".data ++ (' ' :: natDigits L) := by
    have h0 : ("Content-Length: ".data : List Char) = "Content-Length:".data ++ [' '] := by
      decide
    rw [h0, List.append_assoc]
    rfl
  rw [e]
  apply parseCLA_block
  · intro hm
    rcases List.mem_cons.mp hm with h1 | h1
    · exact absurd h1 (by decide)
    · exact absurd (natDigits_digits L ':' h1) (by decide)
  · rw [← e]
    exact hdrA_no_cr L
  · rw [pyStrip_space_all _ (fun c hc => digit_not_space c (natDigits_digits L c hc))]
    exact pyInt_natDigits L

theorem drainB_nil (f : Nat) : drainB f [] = [] := by
  cases f <;> rfl

theorem readFramesA_nil (f : Nat) : readFramesA f [] = [] := by
  cases f <;> rfl

theorem drop_after_crlf4 (xs rest : List Char) :
    (xs ++ '\r' :: '\n' :: '\r' :: '\n' :: rest).drop (xs.length + 4) = rest := by
  have e : xs ++ '\r' :: '\n' :: '\r' :: '\n' :: rest =
      (xs ++ ['\r', '\n', '\r', '\n']) ++ rest := by
    rw [List.append_assoc]
    rfl
  rw [e]
  apply List.drop_left'
  simp

theorem take_before_crlf4 (xs rest : List Char) :
    (xs ++ '\r' :: '\n' :: '\r' :: '\n' :: rest).take (xs.length + 4) =
      xs ++ ['\r', '\n', '\r', '\n'] := by
  have e : xs ++ '\r' :: '\n' :: '\r' :: '\n' :: rest =
      (xs ++ ['\r', '\n', '\r', '\n']) ++ rest := by
    rw [List.append_assoc]
    rfl
  rw [e]
  apply List.take_left'
  simp

theorem drainB_write (f : Nat) (body : List Char) :
    drainB (f + 1) (writeMessage body) = [body] := by
  have hnocr := hdrA_no_cr body.length
  have hparse := parseCLB_header body.length
  rw [writeMessage_decomp]
  set hdr : List Char := "Content-Length: ".data ++ natDigits body.length with hhdr
  simp only [drainB]
  rw [findSub4_prepend _ _ hnocr]
  split
  · next heq => exact absurd heq (by simp)
  · next i heq =>
    injection heq with heq2
    subst heq2
    rw [List.take_left, hparse, drop_after_crlf4]
    split
    · next heq => exact absurd heq (by simp)
    · next n heq =>
      injection heq with heq2
      subst heq2
      rw [if_pos (le_refl _)]
      simp [pyTake, pyDrop, drainB_nil]

theorem drainB_write_ge (f : Nat) (body : List Char) (hf : 1 ≤ f) :
    drainB f (writeMessage body) = [body] := by
  obtain ⟨f', rfl⟩ : ∃ f', f = f' + 1 := ⟨f - 1, by omega⟩
  exact drainB_write f' body

theorem readFramesA_write (f : Nat) (body : List Char) (hb : 0 < body.length) :
    readFramesA (f + 1) (writeMessage body) = [body] := by
  have hnocr := hdrA_no_cr body.length
  have hparse := parseCLA_header body.length
  rw [writeMessage_decomp]
  set hdr : List Char := "Content-Length: ".data ++ natDigits body.length with hhdr
  simp only [readFramesA]
  rw [findSub4_prepend _ _ hnocr]
  split
  · next heq => exact absurd heq (by simp)
  · next i heq =>
    injection heq with heq2
    subst heq2
    rw [take_before_crlf4]
    rw [hparse, drop_after_crlf4]
    split
    · next heq => exact absurd heq (by simp)
    · next n heq =>
      injection heq with heq2
      subst heq2
      rw [if_neg (by push_neg; exact_mod_cast hb)]
      rw [if_pos (le_refl _)]
      simp [readFramesA_nil]

theorem readFramesA_write_ge (f : Nat) (body : List Char) (hf : 1 ≤ f) (hb : 0 < body.length) :
    readFramesA f (writeMessage body) = [body] := by
  obtain ⟨f', rfl⟩ : ∃ f', f = f' + 1 := ⟨f - 1, by omega⟩
  exact readFramesA_write f' body hb

theorem drainB_skip (hdr rest : List Char) (f : Nat) (hnone : parseCLB hdr = none)
    (hnocr : '\r' ∉ hdr) :
    drainB (f + 1) (hdr ++ '\r' :: '\n' :: '\r' :: '\n' :: rest) = drainB f rest := by
  simp only [drainB]
  rw [findSub4_prepend _ _ hnocr]
  split
  · next heq => exact absurd heq (by simp)
  · next i heq =>
    injection heq with heq2
    subst heq2
    rw [List.take_left, hnone, drop_after_crlf4]

theorem readFramesA_skip (hdr rest : List Char) (f : Nat)
    (hnone : parseCLA (hdr ++ ['\r', '\n', '\r', '\n']) = none)
    (hnocr : '\r' ∉ hdr) :
    readFramesA (f + 1) (hdr ++ '\r' :: '\n' :: '\r' :: '\n' :: rest) = readFramesA f rest := by
  simp only [readFramesA]
  rw [findSub4_prepend _ _ hnocr]
  split
  · next heq => exact absurd heq (by simp)
  · next i heq =>
    injection heq with heq2
    subst heq2
    rw [take_before_crlf4, hnone, drop_after_crlf4]

/- ## Helper lemmas: the URI translators on string leaves -/

theorem isPrefixOf_append_cancel (p q s : List Char) :
    (p ++ q).isPrefixOf (p ++ s) = q.isPrefixOf s := by
  induction p with
  | nil => rfl
  | cons c p' ih =>
    rw [List.cons_append, List.cons_append, List.isPrefixOf_cons₂, ih]
    simp

theorem degPatA_not_scp (remote x : List Char) :
    (degPatA remote).isPrefixOf ("scp://".data ++ x) = false := by
  have e1 : degPatA remote = 'f' :: ("ile://scp://".data ++ remote ++ "/".data) := rfl
  have e2 : ("scp://".data : List Char) ++ x = 's' :: ("cp://".data ++ x) := rfl
  rw [e1, e2]
  exact isPrefixOf_ne_head _ _ _ _ (by decide)

theorem scp_not_file (remote x : List Char) :
    (incomingPatternA remote).isPrefixOf ("file://".data ++ x) = false := by
  have e1 : incomingPatternA remote = 's' :: ("cp://".data ++ remote ++ "/".data) := rfl
  have e2 : ("file://".data : List Char) ++ x = 'f' :: ("ile://".data ++ x) := rfl
  rw [e1, e2]
  exact isPrefixOf_ne_head _ _ _ _ (by decide)

theorem degPatA_through_file (remote x : List Char) :
    (degPatA remote).isPrefixOf ("file://".data ++ x) =
      (incomingPatternA remote).isPrefixOf x := by
  have e : degPatA remote = "file://".data ++ incomingPatternA remote := rfl
  rw [e, isPrefixOf_append_cancel]

theorem replaceA_toRemote (remote rest : List Char) :
    replace_uri_str (incomingPatternA remote) incomingReplacementA remote
      (incomingPatternA remote ++ rest) = "file://".data ++ rest := by
  unfold replace_uri_str
  have h1 : (degPatA remote).isPrefixOf (incomingPatternA remote ++ rest) = false := by
    have e2 : incomingPatternA remote ++ rest = "scp://".data ++ (remote ++ "/".data ++ rest) := by
      unfold incomingPatternA
      simp [List.append_assoc]
    rw [e2]
    exact degPatA_not_scp remote _
  rw [h1]
  simp only [Bool.false_eq_true, if_false]
  rw [isPrefixOf_append_self, if_pos rfl, drop_len_append]
  rfl

theorem replaceA_degenerate (pattern remote rest : List Char) (replacement : List Char) :
    replace_uri_str pattern replacement remote (degPatA remote ++ rest) =
      "file://".data ++ rest := by
  unfold replace_uri_str
  rw [isPrefixOf_append_self, if_pos rfl, drop_len_append]

theorem replaceA_toClient (remote rest : List Char)
    (h : (incomingPatternA remote).isPrefixOf rest = false) :
    replace_uri_str outgoingPatternA (outgoingReplacementA remote) remote
      ("file://".data ++ rest) = outgoingReplacementA remote ++ rest := by
  unfold replace_uri_str
  rw [degPatA_through_file, h]
  simp only [Bool.false_eq_true, if_false]
  have e : ("file://".data : List Char) ++ rest = outgoingPatternA ++ rest := rfl
  rw [e, isPrefixOf_append_self, if_pos rfl, drop_len_append]

theorem deep_str_match (p r rest : List Char) :
    deep_replace_uris p r (.str (p ++ rest)) = some (.str (r ++ rest)) := by
  unfold deep_replace_uris
  rw [isPrefixOf_append_self, if_pos rfl, drop_len_append]

theorem deep_str_nomatch (p r : List Char) (s : List Char) (h : p.isPrefixOf s = false) :
    deep_replace_uris p r (.str s) = some (.str s) := by
  unfold deep_replace_uris
  rw [h]
  simp

theorem deep_str_idem (p r s t : List Char) (hp : ∀ x, p.isPrefixOf (r ++ x) = false)
    (h : deep_replace_uris p r (.str s) = some (.str t)) :
    deep_replace_uris p r (.str t) = some (.str t) := by
  unfold deep_replace_uris at h
  by_cases hps : p.isPrefixOf s
  · rw [if_pos hps] at h
    injection h with h2
    injection h2 with h3
    rw [← h3]
    exact deep_str_nomatch p r _ (hp _)
  · rw [if_neg hps] at h
    injection h with h2
    injection h2 with h3
    rw [← h3]
    exact deep_str_nomatch p r s (Bool.eq_false_iff.mpr hps)

theorem replaceA_idem (remote s : List Char)
    (h : (degPatA remote).isPrefixOf
      (replace_uri_str (incomingPatternA remote) incomingReplacementA remote s) = false) :
    replace_uri_str (incomingPatternA remote) incomingReplacementA remote
      (replace_uri_str (incomingPatternA remote) incomingReplacementA remote s) =
    replace_uri_str (incomingPatternA remote) incomingReplacementA remote s := by
  by_cases h1 : (degPatA remote).isPrefixOf s = true
  · have e : replace_uri_str (incomingPatternA remote) incomingReplacementA remote s =
        "file://".data ++ s.drop (degPatA remote).length := by
      unfold replace_uri_str
      rw [h1]
      simp
    rw [e] at h ⊢
    unfold replace_uri_str
    rw [h, scp_not_file]
    simp
  · by_cases h2 : (incomingPatternA remote).isPrefixOf s = true
    · have e : replace_uri_str (incomingPatternA remote) incomingReplacementA remote s =
          "file://".data ++ s.drop (incomingPatternA remote).length := by
        unfold replace_uri_str
        rw [h2]
        simp only [h1, Bool.false_eq_true, if_false, if_true]
        rfl
      rw [e] at h ⊢
      unfold replace_uri_str
      rw [h, scp_not_file]
      simp
    · have e : replace_uri_str (incomingPatternA remote) incomingReplacementA remote s = s := by
        unfold replace_uri_str
        simp [h1, h2]
      rw [e] at h ⊢
      unfold replace_uri_str
      simp [h1, h2]

theorem splitTail_succ (xs ys : List Char) (n : Nat) (h : '/' ∉ xs) :
    splitTail '/' (n + 1) (xs ++ '/' :: ys) = splitTail '/' n ys := by
  simp only [splitTail]
  rw [afterFirstSep_skip _ _ _ h]

theorem splitFix6_wrapped (protocol remote p : List Char)
    (hp : '/' ∉ protocol) (hr : '/' ∉ remote) :
    splitFix6 (wrappedPat protocol remote ++ '/' :: p) = "file:///".data ++ p := by
  have hpc : '/' ∉ protocol ++ [':'] := by
    intro hm
    rcases List.mem_append.mp hm with h1 | h1
    · exact hp h1
    · rw [List.mem_singleton] at h1
      exact absurd h1 (by decide)
  have e : wrappedPat protocol remote ++ '/' :: p =
      "file:".data ++ '/' :: ([] ++ '/' :: ((protocol ++ [':']) ++ '/' ::
        ([] ++ '/' :: (remote ++ '/' :: ([] ++ '/' :: p))))) := by
    simp [wrappedPat]
  unfold splitFix6
  rw [e]
  rw [splitTail_succ _ _ _ (by decide)]
  rw [splitTail_succ _ _ _ (List.not_mem_nil '/')]
  rw [splitTail_succ _ _ _ hpc]
  rw [splitTail_succ _ _ _ (List.not_mem_nil '/')]
  rw [splitTail_succ _ _ _ hr]
  rw [splitTail_succ _ _ _ (List.not_mem_nil '/')]
  rfl

/- ## Helper lemmas: shape preservation -/

mutual
theorem sameShape_refl : ∀ m : Json, SameShape m m
  | .str _ => .str
  | .num _ => .num
  | .bool _ => .bool
  | .null => .null
  | .arr xs => .arr (sameShapeArr_refl xs)
  | .obj kvs => .obj (sameShapeObj_refl kvs)

theorem sameShapeArr_refl : ∀ xs : JsonArr, SameShapeArr xs xs
  | .nil => .nil
  | .cons x xs => .cons (sameShape_refl x) (sameShapeArr_refl xs)

theorem sameShapeObj_refl : ∀ kvs : JsonObj, SameShapeObj kvs kvs
  | .nil => .nil
  | .cons _ v kvs => .cons (sameShape_refl v) (sameShapeObj_refl kvs)
end

mutual
theorem sameShape_trans : ∀ a b c : Json, SameShape a b → SameShape b c → SameShape a c
  | _, _, c, .str, h2 => by cases h2; exact .str
  | _, _, c, .num, h2 => by cases h2; exact .num
  | _, _, c, .bool, h2 => by cases h2; exact .bool
  | _, _, c, .null, h2 => by cases h2; exact .null
  | _, _, c, .arr h1, h2 => by
    cases h2 with
    | arr h2' => exact .arr (sameShapeArr_trans _ _ _ h1 h2')
  | _, _, c, .obj h1, h2 => by
    cases h2 with
    | obj h2' => exact .obj (sameShapeObj_trans _ _ _ h1 h2')

theorem sameShapeArr_trans : ∀ a b c : JsonArr, SameShapeArr a b → SameShapeArr b c →
    SameShapeArr a c
  | _, _, c, .nil, h2 => by cases h2; exact .nil
  | _, _, c, .cons h1 t1, h2 => by
    cases h2 with
    | cons h2' t2 => exact .cons (sameShape_trans _ _ _ h1 h2') (sameShapeArr_trans _ _ _ t1 t2)

theorem sameShapeObj_trans : ∀ a b c : JsonObj, SameShapeObj a b → SameShapeObj b c →
    SameShapeObj a c
  | _, _, c, .nil, h2 => by cases h2; exact .nil
  | _, _, c, .cons h1 t1, h2 => by
    cases h2 with
    | cons h2' t2 => exact .cons (sameShape_trans _ _ _ h1 h2') (sameShapeObj_trans _ _ _ t1 t2)
end

mutual
theorem replace_uris_shape (pattern replacement remote : List Char) :
    ∀ m : Json, SameShape m (replace_uris pattern replacement remote m)
  | .str _ => .str
  | .num _ => .num
  | .bool _ => .bool
  | .null => .null
  | .arr xs => .arr (replace_uris_arr_shape pattern replacement remote xs)
  | .obj kvs => .obj (replace_uris_obj_shape pattern replacement remote kvs)

theorem replace_uris_arr_shape (pattern replacement remote : List Char) :
    ∀ xs : JsonArr, SameShapeArr xs (replace_uris_arr pattern replacement remote xs)
  | .nil => .nil
  | .cons x xs => .cons (replace_uris_shape pattern replacement remote x)
      (replace_uris_arr_shape pattern replacement remote xs)

theorem replace_uris_obj_shape (pattern replacement remote : List Char) :
    ∀ kvs : JsonObj, SameShapeObj kvs (replace_uris_obj pattern replacement remote kvs)
  | .nil => .nil
  | .cons _ v kvs => .cons (replace_uris_shape pattern replacement remote v)
      (replace_uris_obj_shape pattern replacement remote kvs)
end

theorem setKV_shape (k : List Char) (v v' : Json) :
    ∀ kvs : JsonObj, lookupKV k kvs = some v → SameShape v v' →
      SameShapeObj kvs (setKV k v' kvs)
  | .nil, hl, _ => by cases hl
  | .cons k'' w rest, hl, hs => by
    unfold lookupKV at hl
    unfold setKV
    by_cases hk : k'' = k
    · rw [if_pos hk] at hl ⊢
      injection hl with hl2
      rw [← hl2] at hs
      exact .cons hs (sameShapeObj_refl rest)
    · rw [if_neg hk] at hl ⊢
      exact .cons (sameShape_refl w) (setKV_shape k v v' rest hl hs)

theorem tdFix_shape (pattern replacement : List Char) (v v' : Json)
    (h : tdFix pattern replacement v = some v') : SameShape v v' := by
  cases v with
  | obj kvs =>
    simp only [tdFix] at h
    split at h
    · next u heq =>
      split at h
      · next hp =>
        injection h with h2
        rw [← h2]
        exact .obj (setKV_shape _ _ _ _ heq .str)
      · next hp =>
        injection h with h2
        rw [← h2]
        exact sameShape_refl _
    · next u heq hne => cases h
    · next heq =>
      injection h with h2
      rw [← h2]
      exact sameShape_refl _
  | str s => injection h with h2; rw [← h2]; exact sameShape_refl _
  | num n => injection h with h2; rw [← h2]; exact sameShape_refl _
  | bool b => injection h with h2; rw [← h2]; exact sameShape_refl _
  | null => injection h with h2; rw [← h2]; exact sameShape_refl _
  | arr xs => injection h with h2; rw [← h2]; exact sameShape_refl _

mutual
theorem deep_shape (p r : List Char) :
    ∀ m m', deep_replace_uris p r m = some m' → SameShape m m'
  | .str s, m', h => by
    unfold deep_replace_uris at h
    by_cases hp : p.isPrefixOf s = true
    · rw [if_pos hp] at h
      injection h with h2
      rw [← h2]
      exact .str
    · rw [if_neg hp] at h
      injection h with h2
      rw [← h2]
      exact .str
  | .num n, m', h => by
    injection h with h2
    rw [← h2]
    exact .num
  | .bool b, m', h => by
    injection h with h2
    rw [← h2]
    exact .bool
  | .null, m', h => by
    injection h with h2
    rw [← h2]
    exact .null
  | .arr xs, m', h => by
    simp only [deep_replace_uris] at h
    cases hxs : deep_replace_arr p r xs with
    | none =>
      rw [hxs] at h
      cases h
    | some xs' =>
      rw [hxs] at h
      simp only [Option.map_some'] at h
      injection h with h2
      rw [← h2]
      exact .arr (deep_shape_arr p r xs xs' hxs)
  | .obj kvs, m', h => by
    simp only [deep_replace_uris] at h
    cases hkvs : deep_replace_obj p r kvs with
    | none =>
      rw [hkvs] at h
      cases h
    | some kvs' =>
      rw [hkvs] at h
      simp only [Option.map_some'] at h
      injection h with h2
      rw [← h2]
      exact .obj (deep_shape_obj p r kvs kvs' hkvs)

theorem deep_shape_arr (p r : List Char) :
    ∀ xs xs', deep_replace_arr p r xs = some xs' → SameShapeArr xs xs'
  | .nil, xs', h => by
    injection h with h2
    rw [← h2]
    exact .nil
  | .cons x xs, res, h => by
    simp only [deep_replace_arr] at h
    split at h
    · cases h
    · next x' heq1 =>
      split at h
      · cases h
      · next xs' heq2 =>
        injection h with h2
        rw [← h2]
        exact .cons (deep_shape p r x x' heq1) (deep_shape_arr p r xs xs' heq2)

theorem deep_shape_obj (p r : List Char) :
    ∀ kvs kvs', deep_replace_obj p r kvs = some kvs' → SameShapeObj kvs kvs'
  | .nil, kvs', h => by
    injection h with h2
    rw [← h2]
    exact .nil
  | .cons k v kvs, res, h => by
    simp only [deep_replace_obj] at h
    split at h
    · cases h
    · next v' heq1 =>
      split at h
      · cases h
      · next v'' heq2 =>
        split at h
        · cases h
        · next kvs' heq3 =>
          injection h with h2
          rw [← h2]
          have hv : SameShape v v'' := by
            by_cases hk : k = "textDocument".data
            · rw [if_pos hk] at heq2
              exact sameShape_trans _ _ _ (deep_shape p r v v' heq1)
                (tdFix_shape p r v' v'' heq2)
            · rw [if_neg hk] at heq2
              injection heq2 with heq2'
              rw [← heq2']
              exact deep_shape p r v v' heq1
          exact .cons hv (deep_shape_obj p r kvs kvs' heq3)
end

/- ## Helper lemmas: the editor→server fix of remote-lsp/proxy.py -/

theorem fixRootUri_shape (protocol remote : List Char) (p : JsonObj) :
    SameShapeObj p (fixRootUri protocol remote p) := by
  unfold fixRootUri
  split
  · next u heq =>
    split
    · exact setKV_shape _ _ _ _ heq .str
    · exact sameShapeObj_refl p
  · exact sameShapeObj_refl p

theorem fixRootPath_shape (protocol remote : List Char) (p : JsonObj) :
    SameShapeObj p (fixRootPath protocol remote p) := by
  unfold fixRootPath
  split
  · next u heq =>
    split
    · exact setKV_shape _ _ _ _ heq .str
    · exact sameShapeObj_refl p
  · exact sameShapeObj_refl p

theorem fixFolder_shape (protocol remote : List Char) (f f' : Json)
    (h : fixFolder protocol remote f = some f') : SameShape f f' := by
  cases f with
  | obj kvs =>
    simp only [fixFolder] at h
    split at h
    · next u heq =>
      split at h
      · injection h with h2
        rw [← h2]
        exact .obj (setKV_shape _ _ _ _ heq .str)
      · injection h with h2
        rw [← h2]
        exact sameShape_refl _
    · next u heq hne =>
      injection h with h2
      rw [← h2]
      exact sameShape_refl _
    · next heq =>
      injection h with h2
      rw [← h2]
      exact sameShape_refl _
  | str s =>
    simp only [fixFolder] at h
    by_cases hs : hasSubstr "uri".data s = true
    · rw [if_pos hs] at h
      cases h
    · rw [if_neg hs] at h
      injection h with h2
      rw [← h2]
      exact sameShape_refl _
  | arr xs =>
    simp only [fixFolder] at h
    by_cases hs : arrHasStr "uri".data xs = true
    · rw [if_pos hs] at h
      cases h
    · rw [if_neg hs] at h
      injection h with h2
      rw [← h2]
      exact sameShape_refl _
  | num n => cases h
  | bool b => cases h
  | null => cases h

theorem fixFolderArr_shape (protocol remote : List Char) :
    ∀ xs xs', fixFolderArr protocol remote xs = some xs' → SameShapeArr xs xs'
  | .nil, xs', h => by
    injection h with h2
    rw [← h2]
    exact .nil
  | .cons f fs, res, h => by
    simp only [fixFolderArr] at h
    split at h
    · cases h
    · next f' heq1 =>
      split at h
      · cases h
      · next fs' heq2 =>
        injection h with h2
        rw [← h2]
        exact .cons (fixFolder_shape protocol remote f f' heq1)
          (fixFolderArr_shape protocol remote fs fs' heq2)

theorem fixFolders_shape (protocol remote : List Char) (p p' : JsonObj)
    (h : fixFolders protocol remote p = some p') : SameShapeObj p p' := by
  unfold fixFolders at h
  split at h
  · next xs heq =>
    split at h
    · cases h
    · next xs' heq2 =>
      injection h with h2
      rw [← h2]
      exact setKV_shape _ _ _ _ heq (.arr (fixFolderArr_shape protocol remote xs xs' heq2))
  · injection h with h2
    rw [← h2]
    exact sameShapeObj_refl p

theorem toServer_shape (protocol remote : List Char) (m m' : Json)
    (h : toServerTransform protocol remote m = some m') : SameShape m m' := by
  cases m with
  | obj kvs =>
    simp only [toServerTransform] at h
    split at h
    · next p heq =>
      split at h
      · next p' heq2 =>
        injection h with h2
        rw [← h2]
        refine .obj (setKV_shape _ _ _ _ heq (.obj ?_))
        refine sameShapeObj_trans _ _ _ ?_ (fixFolders_shape protocol remote _ _ heq2)
        exact sameShapeObj_trans _ _ _ (fixRootUri_shape protocol remote p)
          (fixRootPath_shape protocol remote _)
      · cases h
    · next hne =>
      injection h with h2
      rw [← h2]
      exact sameShape_refl _
  | str s => injection h with h2; rw [← h2]; exact sameShape_refl _
  | num n => injection h with h2; rw [← h2]; exact sameShape_refl _
  | bool b => injection h with h2; rw [← h2]; exact sameShape_refl _
  | null => injection h with h2; rw [← h2]; exact sameShape_refl _
  | arr xs => injection h with h2; rw [← h2]; exact sameShape_refl _

theorem setKV_setKV (k : List Char) (v w : Json) :
    ∀ kvs : JsonObj, setKV k w (setKV k v kvs) = setKV k w kvs
  | .nil => rfl
  | .cons k' v' rest => by
    by_cases hk : k' = k
    · simp only [setKV, if_pos hk]
    · simp only [setKV, if_neg hk]
      rw [setKV_setKV k v w rest]

theorem maskFolder_set_uri (t : List Char) (kvs : JsonObj) :
    maskFolder (.obj (setKV "uri".data (.str t) kvs)) = maskFolder (.obj kvs) := by
  simp only [maskFolder]
  rw [setKV_setKV]

theorem fixFolder_mask (protocol remote : List Char) (f f' : Json)
    (h : fixFolder protocol remote f = some f') : maskFolder f' = maskFolder f := by
  cases f with
  | obj kvs =>
    simp only [fixFolder] at h
    split at h
    · next u heq =>
      split at h
      · injection h with h2
        rw [← h2]
        exact maskFolder_set_uri _ kvs
      · injection h with h2
        rw [← h2]
    · next u heq hne =>
      injection h with h2
      rw [← h2]
    · next heq =>
      injection h with h2
      rw [← h2]
  | str s =>
    simp only [fixFolder] at h
    by_cases hs : hasSubstr "uri".data s = true
    · rw [if_pos hs] at h
      cases h
    · rw [if_neg hs] at h
      injection h with h2
      rw [← h2]
  | arr xs =>
    simp only [fixFolder] at h
    by_cases hs : arrHasStr "uri".data xs = true
    · rw [if_pos hs] at h
      cases h
    · rw [if_neg hs] at h
      injection h with h2
      rw [← h2]
  | num n => cases h
  | bool b => cases h
  | null => cases h

theorem fixFolderArr_mask (protocol remote : List Char) :
    ∀ xs xs', fixFolderArr protocol remote xs = some xs' →
      maskFolderArr xs' = maskFolderArr xs
  | .nil, xs', h => by
    injection h with h2
    rw [← h2]
  | .cons f fs, res, h => by
    simp only [fixFolderArr] at h
    split at h
    · cases h
    · next f' heq1 =>
      split at h
      · cases h
      · next fs' heq2 =>
        injection h with h2
        rw [← h2]
        simp only [maskFolderArr]
        rw [fixFolder_mask protocol remote f f' heq1,
          fixFolderArr_mask protocol remote fs fs' heq2]

theorem maskParams_set (k : List Char) (v : Json)
    (hk : k = "rootUri".data ∨ k = "rootPath".data) :
    ∀ p : JsonObj, maskParamsEntries (setKV k v p) = maskParamsEntries p
  | .nil => rfl
  | .cons k' v' rest => by
    by_cases hk' : k' = k
    · simp only [setKV, if_pos hk']
      rw [hk']
      simp only [maskParamsEntries, if_pos hk]
    · simp only [setKV, if_neg hk']
      simp only [maskParamsEntries]
      rw [maskParams_set k v hk rest]

theorem maskParams_set_wf (xs xs' : JsonArr)
    (h : maskFolderArr xs' = maskFolderArr xs) :
    ∀ p : JsonObj, lookupKV "workspaceFolders".data p = some (.arr xs) →
      maskParamsEntries (setKV "workspaceFolders".data (.arr xs') p) = maskParamsEntries p
  | .nil, hl => by cases hl
  | .cons k' v' rest, hl => by
    unfold lookupKV at hl
    by_cases hk' : k' = "workspaceFolders".data
    · rw [if_pos hk'] at hl
      injection hl with hl2
      simp only [setKV, if_pos hk']
      rw [hk', hl2]
      simp only [maskParamsEntries, if_neg (by decide : ¬("workspaceFolders".data =
        "rootUri".data ∨ "workspaceFolders".data = "rootPath".data)), if_pos rfl]
      rw [h]
      simp
    · rw [if_neg hk'] at hl
      simp only [setKV, if_neg hk']
      simp only [maskParamsEntries]
      rw [maskParams_set_wf xs xs' h rest hl]

theorem fixRootUri_mask (protocol remote : List Char) (p : JsonObj) :
    maskParamsEntries (fixRootUri protocol remote p) = maskParamsEntries p := by
  unfold fixRootUri
  split
  · next u heq =>
    split
    · exact maskParams_set _ _ (Or.inl rfl) p
    · rfl
  · rfl

theorem fixRootPath_mask (protocol remote : List Char) (p : JsonObj) :
    maskParamsEntries (fixRootPath protocol remote p) = maskParamsEntries p := by
  unfold fixRootPath
  split
  · next u heq =>
    split
    · exact maskParams_set _ _ (Or.inr rfl) p
    · rfl
  · rfl

theorem fixFolders_mask (protocol remote : List Char) (p p' : JsonObj)
    (h : fixFolders protocol remote p = some p') :
    maskParamsEntries p' = maskParamsEntries p := by
  unfold fixFolders at h
  split at h
  · next xs heq =>
    split at h
    · cases h
    · next xs' heq2 =>
      injection h with h2
      rw [← h2]
      exact maskParams_set_wf xs xs' (fixFolderArr_mask protocol remote xs xs' heq2) p heq
  · injection h with h2
    rw [← h2]

theorem maskMsg_set_params (p p' : JsonObj)
    (h : maskParamsEntries p' = maskParamsEntries p) :
    ∀ kvs : JsonObj, lookupKV "params".data kvs = some (.obj p) →
      maskMsgEntries (setKV "params".data (.obj p') kvs) = maskMsgEntries kvs
  | .nil, hl => by cases hl
  | .cons k' v' rest, hl => by
    unfold lookupKV at hl
    by_cases hk' : k' = "params".data
    · rw [if_pos hk'] at hl
      injection hl with hl2
      simp only [setKV, if_pos hk']
      rw [hk', hl2]
      simp only [maskMsgEntries, if_pos rfl]
      rw [h]
      simp
    · rw [if_neg hk'] at hl
      simp only [setKV, if_neg hk']
      simp only [maskMsgEntries]
      rw [maskMsg_set_params p p' h rest hl]

theorem toServer_mask (protocol remote : List Char) (m m' : Json)
    (h : toServerTransform protocol remote m = some m') : maskMsg m' = maskMsg m := by
  cases m with
  | obj kvs =>
    simp only [toServerTransform] at h
    split at h
    · next p heq =>
      split at h
      · next p' heq2 =>
        injection h with h2
        rw [← h2]
        simp only [maskMsg]
        have hmask : maskParamsEntries p' = maskParamsEntries p := by
          rw [fixFolders_mask protocol remote _ p' heq2, fixRootPath_mask, fixRootUri_mask]
        rw [maskMsg_set_params p p' hmask kvs heq]
      · cases h
    · next hne =>
      injection h with h2
      rw [← h2]
  | str s => injection h with h2; rw [← h2]
  | num n => injection h with h2; rw [← h2]
  | bool b => injection h with h2; rw [← h2]
  | null => injection h with h2; rw [← h2]
  | arr xs => injection h with h2; rw [← h2]

/- ## Helper lemmas: the serialized body is pure ASCII -/

theorem ascii_of_digit (c : Char) (h : isAsciiDigit c = true) : c.toNat < 128 := by
  simp only [isAsciiDigit, decide_eq_true_eq] at h
  omega

theorem hexDigit_ascii (n : Nat) : (hexDigit n).toNat < 128 := by
  rcases Nat.lt_or_ge n 16 with h | h
  · interval_cases n <;> decide
  · unfold hexDigit
    repeat rw [if_neg (by omega)]
    decide

theorem allAscii_nil : allAscii [] = true := rfl

theorem allAscii_append (a b : List Char) :
    allAscii (a ++ b) = (allAscii a && allAscii b) := by
  simp [allAscii]

theorem allAscii_cons (c : Char) (t : List Char) :
    allAscii (c :: t) = (decide (c.toNat < 128) && allAscii t) := by
  simp [allAscii]

theorem uEsc4_ascii (n : Nat) : allAscii (uEsc4 n) = true := by
  simp [uEsc4, allAscii]
  exact ⟨hexDigit_ascii _, hexDigit_ascii _, hexDigit_ascii _, hexDigit_ascii _⟩

theorem escapeChar_ascii (c : Char) : allAscii (escapeChar c) = true := by
  unfold escapeChar
  repeat' split
  all_goals
    first
    | decide
    | exact uEsc4_ascii _
    | (rw [allAscii_append, uEsc4_ascii, uEsc4_ascii]; rfl)
    | (next hband =>
        rw [allAscii_cons]
        simp only [allAscii, List.all_nil, Bool.and_true]
        simp only [decide_eq_true_eq]
        omega)

theorem foldr_escape_ascii (s : List Char) :
    allAscii (s.foldr (fun c acc => escapeChar c ++ acc) ['"']) = true := by
  induction s with
  | nil => decide
  | cons c t ih =>
    rw [List.foldr_cons, allAscii_append, escapeChar_ascii, ih]
    rfl

theorem dumpStr_ascii (s : List Char) : allAscii (dumpStr s) = true := by
  unfold dumpStr
  rw [allAscii_cons, foldr_escape_ascii]
  rfl

theorem natDigits_ascii (n : Nat) : allAscii (natDigits n) = true := by
  simp only [allAscii, List.all_eq_true, decide_eq_true_eq]
  intro c hc
  exact ascii_of_digit c (natDigits_digits n c hc)

theorem intDigits_ascii (n : Int) : allAscii (intDigits n) = true := by
  cases n with
  | ofNat k => exact natDigits_ascii k
  | negSucc k =>
    simp only [intDigits]
    rw [allAscii_cons, natDigits_ascii]
    rfl

mutual
theorem dumps_ascii : ∀ m : Json, allAscii (dumps m) = true
  | .str s => dumpStr_ascii s
  | .num n => intDigits_ascii n
  | .bool true => by decide
  | .bool false => by decide
  | .null => by decide
  | .arr .nil => by decide
  | .arr (.cons x xs) => by
    simp [dumps, allAscii_append, allAscii_cons, allAscii_nil, dumps_ascii x, dumpsArrRest_ascii xs]
  | .obj .nil => by decide
  | .obj (.cons k v kvs) => by
    simp [dumps, allAscii_append, allAscii_cons, allAscii_nil, dumpStr_ascii k, dumps_ascii v,
      dumpsObjRest_ascii kvs]

theorem dumpsArrRest_ascii : ∀ xs : JsonArr, allAscii (dumpsArrRest xs) = true
  | .nil => by decide
  | .cons x xs => by
    simp [dumpsArrRest, allAscii_append, allAscii_cons, allAscii_nil, dumps_ascii x, dumpsArrRest_ascii xs]

theorem dumpsObjRest_ascii : ∀ kvs : JsonObj, allAscii (dumpsObjRest kvs) = true
  | .nil => by decide
  | .cons k v kvs => by
    simp [dumpsObjRest, allAscii_append, allAscii_cons, allAscii_nil, dumpStr_ascii k, dumps_ascii v,
      dumpsObjRest_ascii kvs]
end

theorem byteLen_of_ascii (s : List Char) (h : allAscii s = true) : byteLen s = s.length := by
  induction s with
  | nil => rfl
  | cons c t ih =>
    rw [allAscii_cons] at h
    rcases Bool.and_eq_true_iff.mp h with ⟨hc, ht⟩
    simp only [byteLen, List.map_cons, List.sum_cons]
    have h1 : utf8Len c = 1 := by
      unfold utf8Len
      rw [if_pos (of_decide_eq_true hc)]
    rw [h1]
    have ih2 := ih ht
    simp only [byteLen] at ih2
    rw [ih2, List.length_cons]
    omega

theorem dumps_ne_nil : ∀ m : Json, dumps m ≠ []
  | .str s => by simp [dumps, dumpStr]
  | .num (.ofNat k) => by simpa [dumps, intDigits] using natDigits_ne_nil k
  | .num (.negSucc k) => by simp [dumps, intDigits]
  | .bool true => by decide
  | .bool false => by decide
  | .null => by decide
  | .arr .nil => by decide
  | .arr (.cons x xs) => by simp [dumps]
  | .obj .nil => by decide
  | .obj (.cons k v kvs) => by simp [dumps]

/- ## Helper lemmas: the read loop around the shutdown flag -/

theorem runA_stop (neovimToSsh : Bool) (pattern replacement remote : List Char) :
    ∀ ms : List Json, runA neovimToSsh pattern replacement remote true ms = ([], true)
  | [] => rfl
  | _ :: _ => rfl

theorem handleMessageA_exit (pattern replacement remote : List Char) (m : Json)
    (h : isExitJson m = true) :
    handleMessageA true pattern replacement remote false m =
      (true, some (writeMessage (dumps (replace_uris pattern replacement remote m)))) := by
  cases m with
  | obj kvs =>
    simp only [isExitJson] at h
    simp only [handleMessageA, if_true, h]
  | str s => cases h
  | num n => cases h
  | bool b => cases h
  | null => cases h
  | arr xs => cases h

theorem handleMessageA_keep (pattern replacement remote : List Char) (m : Json)
    (h : isExitJson m = false) :
    (handleMessageA true pattern replacement remote false m).1 = false := by
  cases m with
  | obj kvs =>
    simp only [isExitJson] at h
    simp only [handleMessageA, if_true, h]
    simp
  | str s => rfl
  | num n => rfl
  | bool b => rfl
  | null => rfl
  | arr xs => rfl

theorem runA_exit (pattern replacement remote : List Char) :
    ∀ ms1 : List Json, ∀ (m : Json) (ms2 : List Json),
      (∀ m' ∈ ms1, isExitJson m' = false) → isExitJson m = true →
      runA true pattern replacement remote false (ms1 ++ m :: ms2) =
        ((runA true pattern replacement remote false ms1).1 ++
          [writeMessage (dumps (replace_uris pattern replacement remote m))], true)
  | [], m, ms2, _, hexit => by
    rw [List.nil_append]
    simp only [runA, handleMessageA_exit pattern replacement remote m hexit]
    rw [runA_stop]
    rfl
  | m1 :: rest, m, ms2, hall, hexit => by
    have h1 : isExitJson m1 = false := hall m1 (List.mem_cons_self m1 rest)
    have hrest : ∀ m' ∈ rest, isExitJson m' = false :=
      fun m' hm => hall m' (List.mem_cons_of_mem m1 hm)
    rw [List.cons_append]
    simp only [runA, handleMessageA_keep pattern replacement remote m1 h1]
    rw [runA_exit pattern replacement remote rest m ms2 hrest hexit]
    simp [List.append_assoc]

/- ## The claims -/

/-- Claim C1, counterexample.  The claim states that a string leaf beginning
with the remote-scheme prefix `scheme://host/` is rewritten toRemote to
`file:///` followed by the remainder.  In proxy.py (scheme scp) the
replacement is the two-slash `file://`: at host example.com the leaf
`scp://example.com/src/a.rs` (remainder `src/a.rs`) is rewritten to
`file://src/a.rs`, not the claimed `file:///src/a.rs`. -/
theorem claim_C1_counterexample :
    replace_uris (incomingPatternA "example.com".data) incomingReplacementA "example.com".data
      (.str "scp://example.com/src/a.rs".data) = .str "file://src/a.rs".data ∧
    "file://src/a.rs".data ≠ "file:///src/a.rs".data :=
  ⟨rfl, by decide⟩

/-- Claim C1, amended.  In proxy.py, a string leaf beginning with the
instantiated remote-scheme prefix `scp://remote/` is rewritten in the
toRemote direction to `file://` (two slashes) followed by the remainder of
the string, the remainder unchanged; the three-slash form of the claim is
produced only when the remainder itself begins with `/`.
(remote-lsp/proxy.py performs no generic string-leaf rewriting toRemote: see
claim C9.) -/
theorem claim_C1_amended (remote rest : List Char) :
    replace_uris (incomingPatternA remote) incomingReplacementA remote
      (.str (incomingPatternA remote ++ rest)) = .str ("file://".data ++ rest) := by
  simp only [replace_uris]
  rw [replaceA_toRemote]

/-- Claim C2, counterexample.  The claim states that a string beginning with
`file://` but not `file:///` is translated toClient the same way as a
`file:///` string.  In remote-lsp/proxy.py the toClient rewriting is
`deep_replace_uris` with the hardcoded pattern `file:///`; the non-triple
string `file://src/a.rs` is left unchanged instead of becoming
`rsync://example.com/src/a.rs`. -/
theorem claim_C2_counterexample :
    deep_replace_uris "file:///".data (schemePat "rsync".data "example.com".data)
      (.str "file://src/a.rs".data) = some (.str "file://src/a.rs".data) ∧
    "file://src/a.rs".data ≠ schemePat "rsync".data "example.com".data ++ "src/a.rs".data :=
  ⟨rfl, by decide⟩

/-- Claim C2, amended.  toClient in remote-lsp/proxy.py: a string leaf
beginning with `file:///` is rewritten to the replacement (`scheme://host/`)
followed by the remainder after `file:///`; a string beginning with
`file://` but not `file:///` is left unchanged.  In proxy.py the toClient
pattern is the two-slash `file://`, so a `file://` string (that is not the
degenerate `file://scp://remote/…` form) becomes `scp://remote/` followed
by the remainder after `file://`. -/
theorem claim_C2_amended :
    (∀ repl rest : List Char,
      deep_replace_uris "file:///".data repl (.str ("file:///".data ++ rest)) =
        some (.str (repl ++ rest))) ∧
    (∀ repl s : List Char, "file://".data.isPrefixOf s = true →
      "file:///".data.isPrefixOf s = false →
      deep_replace_uris "file:///".data repl (.str s) = some (.str s)) ∧
    (∀ remote rest : List Char, (incomingPatternA remote).isPrefixOf rest = false →
      replace_uris outgoingPatternA (outgoingReplacementA remote) remote
        (.str ("file://".data ++ rest)) = .str (outgoingReplacementA remote ++ rest)) := by
  refine ⟨fun repl rest => deep_str_match _ _ _,
    fun repl s h1 h2 => deep_str_nomatch _ _ _ h2,
    fun remote rest h => ?_⟩
  simp only [replace_uris]
  rw [replaceA_toClient remote rest h]

/-- Claim C2, witness: the amended claim applied at concrete inputs. -/
theorem claim_C2_witness :
    deep_replace_uris "file:///".data (schemePat "rsync".data "example.com".data)
      (.str "file://x".data) = some (.str "file://x".data) ∧
    replace_uris outgoingPatternA (outgoingReplacementA "example.com".data) "example.com".data
      (.str ("file://".data ++ "x".data)) =
      .str (outgoingReplacementA "example.com".data ++ "x".data) :=
  ⟨claim_C2_amended.2.1 _ "file://x".data (by decide) (by decide),
    claim_C2_amended.2.2 "example.com".data "x".data (by decide)⟩

/-- Claim C3, counterexample.  The claim states that the degenerate
double-prefixed `file://scheme://host/<path>` collapses toRemote to
`file:///<path>`.  proxy.py collapses it to the two-slash `file://<path>`;
remote-lsp/proxy.py's rootUri fix uses `"file:///" + uri.split("/", 6)[-1]`,
which drops the first path segment of `src/a.rs` and yields `file:///a.rs`,
not `file:///src/a.rs`. -/
theorem claim_C3_counterexample :
    replace_uris (incomingPatternA "example.com".data) incomingReplacementA "example.com".data
      (.str "file://scp://example.com/src/a.rs".data) = .str "file://src/a.rs".data ∧
    "file://src/a.rs".data ≠ "file:///src/a.rs".data ∧
    fixRootUri "rsync".data "example.com".data
      (.cons "rootUri".data (.str "file://rsync://example.com/src/a.rs".data) .nil) =
      .cons "rootUri".data (.str "file:///a.rs".data) .nil ∧
    "file:///a.rs".data ≠ "file:///src/a.rs".data :=
  ⟨rfl, by decide, rfl, by decide⟩

/-- Claim C3, amended.  In proxy.py the degenerate `file://scp://remote/…`
form is detected before the generic prefix rule (for any pattern and
replacement, in particular in both direction instantiations, so no
`scheme://host/scheme://host/…` value is ever produced) and collapses to
`file://` followed by the remainder.  In remote-lsp/proxy.py the
rootUri/workspace-folder fix yields `file:///` followed by the portion of
the wrapped path after its first `/`; it equals `file:///<path>` exactly
when the path carried by the URI begins with a `/` (the double-slash
convention of the plugin's remote URIs). -/
theorem claim_C3_amended :
    (∀ pattern replacement remote rest : List Char,
      replace_uris pattern replacement remote (.str (degPatA remote ++ rest)) =
        .str ("file://".data ++ rest)) ∧
    (∀ protocol remote p : List Char, '/' ∉ protocol → '/' ∉ remote →
      splitFix6 (wrappedPat protocol remote ++ '/' :: p) = "file:///".data ++ p) := by
  refine ⟨fun pattern replacement remote rest => ?_, splitFix6_wrapped⟩
  simp only [replace_uris]
  rw [replaceA_degenerate]

/-- Claim C3, witness: the amended claim applied at concrete inputs. -/
theorem claim_C3_witness :
    splitFix6 (wrappedPat "rsync".data "example.com".data ++ '/' :: "src/a.rs".data) =
      "file:///".data ++ "src/a.rs".data :=
  claim_C3_amended.2 "rsync".data "example.com".data "src/a.rs".data (by decide) (by decide)

/-- Claim C4, counterexample.  The claim states translation is idempotent per
direction for every string.  In proxy.py (toRemote direction), the string
`scp://example.com/scp://example.com/y` translates once to
`file://scp://example.com/y` and a second application collapses the
re-exposed degenerate prefix to `file://y`, so applying translate twice
differs from applying it once. -/
theorem claim_C4_counterexample :
    replace_uri_str (incomingPatternA "example.com".data) incomingReplacementA "example.com".data
      (replace_uri_str (incomingPatternA "example.com".data) incomingReplacementA
        "example.com".data "scp://example.com/scp://example.com/y".data) ≠
    replace_uri_str (incomingPatternA "example.com".data) incomingReplacementA "example.com".data
      "scp://example.com/scp://example.com/y".data := by
  decide

/-- Claim C4, amended.  String-level idempotence holds with the degenerate
re-exposure excluded: `deep_replace_uris` of remote-lsp/proxy.py is
idempotent on every string leaf whenever the pattern can never match a
rewritten string (true for both direction instantiations, whose pattern and
replacement start with different characters); and proxy.py's translation is
idempotent on every string whose once-translated form does not begin with
the degenerate `file://scp://remote/` prefix. -/
theorem claim_C4_amended :
    (∀ p r s t : List Char, (∀ x, p.isPrefixOf (r ++ x) = false) →
      deep_replace_uris p r (.str s) = some (.str t) →
      deep_replace_uris p r (.str t) = some (.str t)) ∧
    (∀ remote s : List Char,
      (degPatA remote).isPrefixOf
        (replace_uri_str (incomingPatternA remote) incomingReplacementA remote s) = false →
      replace_uri_str (incomingPatternA remote) incomingReplacementA remote
        (replace_uri_str (incomingPatternA remote) incomingReplacementA remote s) =
      replace_uri_str (incomingPatternA remote) incomingReplacementA remote s) :=
  ⟨deep_str_idem, replaceA_idem⟩

/-- Claim C4, witness: the amended claim applied at concrete inputs. -/
theorem claim_C4_witness :
    deep_replace_uris "file:///".data (schemePat "rsync".data "example.com".data)
      (.str "rsync://example.com/src/a.rs".data) =
      some (.str "rsync://example.com/src/a.rs".data) ∧
    replace_uri_str (incomingPatternA "example.com".data) incomingReplacementA "example.com".data
      (replace_uri_str (incomingPatternA "example.com".data) incomingReplacementA
        "example.com".data "scp://example.com/a.rs".data) =
    replace_uri_str (incomingPatternA "example.com".data) incomingReplacementA "example.com".data
      "scp://example.com/a.rs".data := by
  constructor
  · apply claim_C4_amended.1 "file:///".data (schemePat "rsync".data "example.com".data)
      "rsync://example.com/src/a.rs".data "rsync://example.com/src/a.rs".data
    · intro x
      have e1 : ("file:///".data : List Char) = 'f' :: "ile:///".data := rfl
      have e2 : schemePat "rsync".data "example.com".data ++ x =
          'r' :: ("sync://example.com/".data ++ x) := rfl
      rw [e1, e2]
      exact isPrefixOf_ne_head _ _ _ _ (by decide)
    · exact deep_str_nomatch _ _ _ (by decide)
  · exact claim_C4_amended.2 "example.com".data "scp://example.com/a.rs".data (by decide)

/-- Claim C5: for every forwarded message, the emitted frame is exactly the
single header line `Content-Length: <len(body)>` followed by `\r\n\r\n` and
the body bytes, with no other headers (no `\r` or `\n` occurs before the
terminator); the emitted length value parses back as exactly the character
length of the serialized body, which equals its UTF-8 byte length (the
default `json.dumps` output is pure ASCII); the frame deframes back to
exactly the body under both proxies' readers; and both per-message handlers
only ever emit frames of this shape, with the length recomputed from the
translated body (the inbound Content-Length is not even an input of the
write path). -/
theorem claim_C5 :
    (∀ v : Json,
      writeMessage (dumps v) =
        ("Content-Length: ".data ++ natDigits (dumps v).length) ++
          '\r' :: '\n' :: '\r' :: '\n' :: dumps v ∧
      '\r' ∉ "Content-Length: ".data ++ natDigits (dumps v).length ∧
      parseCLB ("Content-Length: ".data ++ natDigits (dumps v).length) =
        some ((dumps v).length : Int) ∧
      byteLen (dumps v) = (dumps v).length ∧
      drainAllB (writeMessage (dumps v)) = [dumps v] ∧
      readFramesAllA (writeMessage (dumps v)) = [dumps v]) ∧
    (∀ (d : Bool) (pattern replacement remote : List Char) (st : Bool) (m : Json)
      (out : List Char), (handleMessageA d pattern replacement remote st m).2 = some out →
      ∃ w : Json, out = writeMessage (dumps w)) ∧
    (∀ (d : Bool) (protocol remote : List Char) (st : Bool) (m : Json) (out : List Char),
      (handleMessageB d protocol remote st m).2 = some out →
      ∃ w : Json, out = writeMessage (dumps w)) := by
  refine ⟨fun v => ⟨writeMessage_decomp (dumps v), hdrA_no_cr (dumps v).length,
    parseCLB_header (dumps v).length, byteLen_of_ascii (dumps v) (dumps_ascii v), ?_, ?_⟩,
    ?_, ?_⟩
  · exact drainB_write_ge _ (dumps v) (Nat.succ_le_succ (Nat.zero_le _))
  · exact readFramesA_write_ge _ (dumps v) (Nat.succ_le_succ (Nat.zero_le _))
      (List.length_pos.mpr (dumps_ne_nil v))
  · intro d pattern replacement remote st m out h
    cases d with
    | true =>
      cases m with
      | obj kvs =>
        simp only [handleMessageA, if_true] at h
        injection h with h2
        exact ⟨_, h2.symm⟩
      | str s => cases h
      | num n => cases h
      | bool b => cases h
      | null => cases h
      | arr xs => cases h
    | false =>
      simp only [handleMessageA, Bool.false_eq_true, if_false] at h
      injection h with h2
      exact ⟨_, h2.symm⟩
  · intro d protocol remote st m out h
    cases d with
    | true =>
      cases m with
      | obj kvs =>
        simp only [handleMessageB, if_true] at h
        split at h
        · next m' heq =>
          injection h with h2
          exact ⟨m', h2.symm⟩
        · cases h
      | str s => cases h
      | num n => cases h
      | bool b => cases h
      | null => cases h
      | arr xs => cases h
    | false =>
      cases m with
      | obj kvs =>
        simp only [handleMessageB, Bool.false_eq_true, if_false] at h
        split at h
        · next m' heq =>
          injection h with h2
          exact ⟨m', h2.symm⟩
        · cases h
      | str s =>
        injection h with h2
        exact ⟨.str s, h2.symm⟩
      | num n =>
        injection h with h2
        exact ⟨.num n, h2.symm⟩
      | bool b =>
        injection h with h2
        exact ⟨.bool b, h2.symm⟩
      | null =>
        injection h with h2
        exact ⟨.null, h2.symm⟩
      | arr xs =>
        injection h with h2
        exact ⟨.arr xs, h2.symm⟩

/-- Claim C5, witness: the handler clauses applied at concrete emissions. -/
theorem claim_C5_witness :
    (∃ w : Json, writeMessage (dumps (replace_uris "a".data "b".data "c".data .null)) =
      writeMessage (dumps w)) ∧
    (∃ w : Json, writeMessage (dumps Json.null) = writeMessage (dumps w)) :=
  ⟨claim_C5.2.1 false "a".data "b".data "c".data false .null _ rfl,
    claim_C5.2.2 false "p".data "r".data false .null _ rfl⟩

/-- Claim C6, counterexample.  The claim states that a header block without a
valid Content-Length is fatal for the direction (the pipeline stops reading
the stream).  Both proxies instead log and continue: after the
Content-Length-less block `X-Foo: 3`, the following well-formed frame is
still extracted and processed by both deframing loops, instead of the
stream being abandoned. -/
theorem claim_C6_counterexample :
    drainAllB "X-Foo: 3\r\n\r\nContent-Length: 2\r\n\r\nab".data = ["ab".data] ∧
    readFramesAllA "X-Foo: 3\r\n\r\nContent-Length: 2\r\n\r\nab".data = ["ab".data] ∧
    (["ab".data] : List (List Char)) ≠ [] :=
  ⟨by decide, by decide, by decide⟩

/-- Claim C6, amended.  In both proxies a header block whose Content-Length
is missing or unparseable is non-fatal: the handler logs, resets to header
parsing and continues with the following bytes, so any subsequent
well-formed frame is still extracted (`continue` at proxy.py lines 101-103
and remote-lsp/proxy.py lines 109-113, rather than a transition to a closed
state). -/
theorem claim_C6_amended :
    (∀ hdr body : List Char, parseCLB hdr = none → '\r' ∉ hdr →
      drainAllB (hdr ++ '\r' :: '\n' :: '\r' :: '\n' :: writeMessage body) = [body]) ∧
    (∀ hdr body : List Char, parseCLA (hdr ++ ['\r', '\n', '\r', '\n']) = none →
      '\r' ∉ hdr → 0 < body.length →
      readFramesAllA (hdr ++ '\r' :: '\n' :: '\r' :: '\n' :: writeMessage body) = [body]) := by
  constructor
  · intro hdr body hnone hnocr
    unfold drainAllB
    have e : (hdr ++ '\r' :: '\n' :: '\r' :: '\n' :: writeMessage body).length =
        (hdr.length + 4 + (writeMessage body).length) := by
      simp
      omega
    rw [e, drainB_skip hdr (writeMessage body) _ hnone hnocr]
    exact drainB_write_ge _ body (by omega)
  · intro hdr body hnone hnocr hb
    unfold readFramesAllA
    have e : (hdr ++ '\r' :: '\n' :: '\r' :: '\n' :: writeMessage body).length =
        (hdr.length + 4 + (writeMessage body).length) := by
      simp
      omega
    rw [e, readFramesA_skip hdr (writeMessage body) _ hnone hnocr]
    exact readFramesA_write_ge _ body (by omega) hb

/-- Claim C6, witness: the amended claim applied at a concrete bad header
followed by a concrete frame. -/
theorem claim_C6_witness :
    drainAllB ("X: y".data ++ '\r' :: '\n' :: '\r' :: '\n' :: writeMessage "ab".data) =
      ["ab".data] ∧
    readFramesAllA ("X: y".data ++ '\r' :: '\n' :: '\r' :: '\n' :: writeMessage "ab".data) =
      ["ab".data] :=
  ⟨claim_C6_amended.1 "X: y".data "ab".data (by decide) (by decide),
    claim_C6_amended.2 "X: y".data "ab".data (by decide) (by decide) (by decide)⟩

/-- Claim C7, counterexample.  The claim states that both readers match the
Content-Length header name case-insensitively.  proxy.py matches with the
case-SENSITIVE `line.startswith(b"Content-Length:")`: a lowercase
`content-length` header is not recognized there (the reader skips the block
and extracts nothing), while remote-lsp/proxy.py does recognize it. -/
theorem claim_C7_counterexample :
    parseCLA "content-length: 5\r\n\r\n".data = none ∧
    parseCLB "content-length: 5".data = some 5 ∧
    readFramesAllA "content-length: 2\r\n\r\nab".data = [] ∧
    drainAllB "content-length: 2\r\n\r\nab".data = ["ab".data] :=
  ⟨by decide, by decide, by decide, by decide⟩

/-- Claim C7, amended.  remote-lsp/proxy.py matches the header name
case-insensitively: any casing of `content-length` with a value that parses
as a Python int is recognized.  proxy.py requires the exact spelling
`Content-Length` (its value being the segment between the first and second
colon of the line, stripped). -/
theorem claim_C7_amended :
    (∀ (name value : List Char) (n : Int),
      name.map pyLower = "content-length".data →
      pyInt (pyStrip value) = some n →
      '\r' ∉ name ++ ':' :: value →
      parseCLB (name ++ ':' :: value) = some n) ∧
    (∀ (value : List Char) (n : Int), ':' ∉ value →
      '\r' ∉ "Content-Length:".data ++ value →
      pyInt (pyStrip value) = some n →
      parseCLA (("Content-Length:".data ++ value) ++ '\r' :: '\n' :: '\r' :: '\n' :: []) =
        some n) :=
  ⟨parseCLB_single_line, parseCLA_block⟩

/-- Claim C7, witness: the amended claim applied at a mixed-case header. -/
theorem claim_C7_witness :
    parseCLB ("CoNtEnT-LeNgTh".data ++ ':' :: " 7".data) = some 7 ∧
    parseCLA (("Content-Length:".data ++ " 7".data) ++ '\r' :: '\n' :: '\r' :: '\n' :: []) =
      some 7 :=
  ⟨claim_C7_amended.1 "CoNtEnT-LeNgTh".data " 7".data 7 (by decide) (by decide) (by decide),
    claim_C7_amended.2 " 7".data 7 (by decide) (by decide) (by decide)⟩

/-- Claim C8, counterexample.  The claim states that an editor→server
message with method "exit" sets the shutdown flag AND is still forwarded.
In remote-lsp/proxy.py the editor→server fixes run after the flag is set
and can raise: for an exit message carrying
`params.workspaceFolders = [5]`, the `"uri" in folder` test raises
TypeError, the message is dropped (nothing written to the server), yet the
flag is set — the forward pass is not completed. -/
theorem claim_C8_counterexample :
    handleMessageB true "rsync".data "example.com".data false
      (.obj (.cons "method".data (.str "exit".data)
        (.cons "params".data (.obj (.cons "workspaceFolders".data
          (.arr (.cons (.num 5) .nil)) .nil)) .nil))) = (true, none) := by
  rfl

/-- Claim C8, amended.  In proxy.py the claimed behaviour holds in full: in
a run of the editor→server read loop, the first message whose method is
"exit" sets the shutdown flag, its translated frame is still emitted as the
last output, and no later message is processed; the method check happens
only on the editor→server direction (the server→editor handlers of both
proxies never change the flag).  In remote-lsp/proxy.py the exit method
also sets the flag and the translated message is emitted whenever the
editor→server transform does not raise. -/
theorem claim_C8_amended :
    (∀ (pattern replacement remote : List Char) (ms1 : List Json) (m : Json) (ms2 : List Json),
      (∀ m' ∈ ms1, isExitJson m' = false) → isExitJson m = true →
      runA true pattern replacement remote false (ms1 ++ m :: ms2) =
        ((runA true pattern replacement remote false ms1).1 ++
          [writeMessage (dumps (replace_uris pattern replacement remote m))], true)) ∧
    (∀ (pattern replacement remote : List Char) (st : Bool) (m : Json),
      (handleMessageA false pattern replacement remote st m).1 = st) ∧
    (∀ (protocol remote : List Char) (st : Bool) (m : Json),
      (handleMessageB false protocol remote st m).1 = st) ∧
    (∀ (protocol remote : List Char) (st : Bool) (kvs : JsonObj),
      isExitMethod kvs = true → (handleMessageB true protocol remote st (.obj kvs)).1 = true) ∧
    (∀ (protocol remote : List Char) (st : Bool) (kvs : JsonObj) (m' : Json),
      toServerTransform protocol remote (.obj kvs) = some m' →
      (handleMessageB true protocol remote st (.obj kvs)).2 =
        some (writeMessage (dumps m'))) := by
  refine ⟨fun pattern replacement remote => runA_exit pattern replacement remote,
    fun pattern replacement remote st m => rfl, ?_, ?_, ?_⟩
  · intro protocol remote st m
    cases m with
    | obj kvs =>
      simp only [handleMessageB, Bool.false_eq_true, if_false]
      split <;> rfl
    | str s => rfl
    | num n => rfl
    | bool b => rfl
    | null => rfl
    | arr xs => rfl
  · intro protocol remote st kvs h
    simp only [handleMessageB, if_true]
    split <;> simp [h]
  · intro protocol remote st kvs m' h
    simp only [handleMessageB, if_true]
    rw [h]

/-- Claim C8, witness: the run-loop clause applied at a singleton exit
message. -/
theorem claim_C8_witness :
    runA true "scp://h/".data "file://".data "h".data false
      ([] ++ .obj (.cons "method".data (.str "exit".data) .nil) :: []) =
      ((runA true "scp://h/".data "file://".data "h".data false []).1 ++
        [writeMessage (dumps (replace_uris "scp://h/".data "file://".data "h".data
          (.obj (.cons "method".data (.str "exit".data) .nil))))], true) :=
  claim_C8_amended.1 "scp://h/".data "file://".data "h".data []
    (.obj (.cons "method".data (.str "exit".data) .nil)) []
    (fun m' hm => absurd hm (List.not_mem_nil m')) (by decide)

/-- Claim C9: on the editor→server direction of remote-lsp/proxy.py, a
forwarded message differs from the decoded input only at params.rootUri,
params.rootPath and the "uri" fields of params.workspaceFolders entries:
masking exactly those three spots makes the translated message equal to the
masked input (so every other string leaf, including textDocument.uri, is
forwarded unchanged), and the translated message has the same shape as the
input (same keys in order, same array lengths, same non-string leaves). -/
theorem claim_C9 (protocol remote : List Char) (m m' : Json)
    (h : toServerTransform protocol remote m = some m') :
    maskMsg m' = maskMsg m ∧ SameShape m m' :=
  ⟨toServer_mask protocol remote m m' h, toServer_shape protocol remote m m' h⟩

/-- Claim C9, witness: the claim applied to a concrete message whose rootUri
is actually rewritten. -/
theorem claim_C9_witness :
    maskMsg (.obj (.cons "params".data (.obj (.cons "rootUri".data
        (.str "file:///a".data) .nil)) .nil)) =
      maskMsg (.obj (.cons "params".data (.obj (.cons "rootUri".data
        (.str "file://rsync://h//a".data) .nil)) .nil)) ∧
    SameShape
      (.obj (.cons "params".data (.obj (.cons "rootUri".data
        (.str "file://rsync://h//a".data) .nil)) .nil))
      (.obj (.cons "params".data (.obj (.cons "rootUri".data
        (.str "file:///a".data) .nil)) .nil)) :=
  claim_C9 "rsync".data "h".data _ _ rfl

/-- Claim C10: translation preserves the shape of the decoded body.
`SameShape` requires the two trees to have identical nesting structure,
objects with exactly the same keys in the same order, arrays of the same
length and element order, and identical non-string leaves, leaving only
full string leaves free to differ.  `replace_uris` of proxy.py always
preserves shape; `deep_replace_uris` of remote-lsp/proxy.py preserves shape
whenever it returns a value (when it raises instead, the message is dropped
and nothing is forwarded at all). -/
theorem claim_C10 :
    (∀ (pattern replacement remote : List Char) (m : Json),
      SameShape m (replace_uris pattern replacement remote m)) ∧
    (∀ (pattern replacement : List Char) (m m' : Json),
      deep_replace_uris pattern replacement m = some m' → SameShape m m') :=
  ⟨fun pattern replacement remote m => replace_uris_shape pattern replacement remote m,
    fun pattern replacement m m' h => deep_shape pattern replacement m m' h⟩

/-- Claim C10, witness: the deep-replacement clause applied at a concrete
rewritten leaf. -/
theorem claim_C10_witness :
    SameShape (.str "file:///a".data) (.str "rsync://h/a".data) :=
  claim_C10.2 "file:///".data "rsync://h/".data _ _ rfl
